import Mathlib

/-!
Shallow embedding of the progress & gamification engine of the devaut backend
(app/services/progress_service.py, app/services/gamification_service.py and the
CRUD helpers they call in app/crud/crud_roadmap.py, app/crud/crud_user.py,
app/crud/crud_gamification.py).

Modelling conventions:
- UUIDs are opaque identifiers, modelled as natural numbers.
- Python ints are modelled as Int; calendar dates and timestamps as Int.
- Python floats in this engine only ever hold small exact decimal fractions
  (scores c/n, the literals 0.7, 0.25, 0.5, 0.9, 0.1, 1.0 and their products);
  they are modelled exactly in the rationals.
- The ORM session is modelled by explicit state passing: a DB record holds the
  rows of each table, and every mutation returns the updated DB (and user).
- A raised-and-propagated exception is an explicit error constructor of the
  result type; a caught exception that the source turns into "return None" is
  a dedicated failure constructor; injected persistence-layer exceptions are
  modelled by boolean flags naming the step at which the exception occurs.
-/

namespace Devaut

/-- Opaque identifiers (UUIDs in the source). -/
abbrev Id := Nat

/-- app/models/user_models.py, UserLevel: a named tier unlocked at min_points. -/
structure UserLevel where
  id : Id
  name : String
  min_points : Int
deriving DecidableEq

/-- app/models/user_models.py, Badge (only the fields the engine reads). -/
structure Badge where
  id : Id
  name : String
deriving DecidableEq

/-- app/models/user_models.py, UserBadgeLink: one badge award for one user. -/
structure UserBadgeLink where
  user_id : Id
  badge_id : Id
deriving DecidableEq

/-- app/models/user_models.py, UserStreak with its column defaults. -/
structure UserStreak where
  user_id : Id
  current_streak : Int := 0
  longest_streak : Int := 0
  last_completed_date : Option Int := none
deriving DecidableEq

/-- app/models/user_models.py, User. The level relationship proxy is kept on
the object next to level_id, exactly as the service reads and writes both. -/
structure User where
  id : Id
  points : Int := 0
  level_id : Option Id := none
  level : Option UserLevel := none
deriving DecidableEq

/-- app/models/roadmap_models.py, ItemTypeEnum. -/
inductive ItemTypeEnum where
  | MODULE
  | RESOURCE
  | ASSIGNMENT
  | QUIZ
deriving DecidableEq

/-- JSON metadata dictionaries stored on progress records; only the keys the
engine ever writes are modelled, each optional to mirror dict entries. -/
structure MetaData where
  attempt_id : Option Id := none
  score : Option ℚ := none
  passed : Option Bool := none
  submission_id : Option Id := none
  status : Option String := none
  grade : Option ℚ := none
deriving DecidableEq

/-- app/models/roadmap_models.py, UserProgress. -/
structure UserProgress where
  user_id : Id
  item_id : Id
  item_type : ItemTypeEnum
  completed_at : Option Int := none
  meta_data : Option MetaData := none
deriving DecidableEq

/-- app/crud/crud_roadmap.py, UserProgressCreate payload. -/
structure UserProgressCreate where
  user_id : Id
  item_id : Id
  item_type : ItemTypeEnum
  completed_at : Option Int := none
  meta_data : Option MetaData := none
deriving DecidableEq

/-- app/models/roadmap_models.py, QuizQuestion (the fields scoring reads).
The answers dictionary is keyed by str(q.id), so the question id is modelled
directly as its string form. -/
structure QuizQuestion where
  id : String
  correct_option_keys : List String
deriving DecidableEq

/-- app/models/roadmap_models.py, Quiz with its questions relationship. -/
structure Quiz where
  id : Id
  title : String := ""
  points_reward : Int := 5
  questions : List QuizQuestion := []
deriving DecidableEq

/-- app/models/roadmap_models.py, UserQuizAttempt. -/
structure UserQuizAttempt where
  id : Id
  user_id : Id
  quiz_id : Id
  score : ℚ
  answers : List (String × List String)
  passed : Bool
  completed_at : Int
deriving DecidableEq

/-- app/models/roadmap_models.py, Assignment (the fields the engine reads). -/
structure Assignment where
  id : Id
  title : String := ""
  points_reward : Int := 10
deriving DecidableEq

/-- app/models/roadmap_models.py, UserAssignmentSubmission with defaults. -/
structure UserAssignmentSubmission where
  id : Id
  user_id : Id
  assignment_id : Id
  submitted_at : Int
  submission_content : Option String := none
  status : String := "submitted"
  grade : Option ℚ := none
  feedback : Option String := none
  graded_at : Option Int := none
deriving DecidableEq

/-- The database session state: the rows of every table the engine touches,
plus a counter supplying fresh primary keys. -/
structure DB where
  levels : List UserLevel := []
  badges : List Badge := []
  badge_links : List UserBadgeLink := []
  users : List User := []
  quizzes : List Quiz := []
  assignments : List Assignment := []
  progress : List UserProgress := []
  attempts : List UserQuizAttempt := []
  submissions : List UserAssignmentSubmission := []
  streaks : List UserStreak := []
  next_id : Id := 0
deriving DecidableEq

/-- Python int() on a rational: truncation toward zero. -/
def pyInt (q : ℚ) : Int :=
  if 0 ≤ q then ⌊q⌋ else ⌈q⌉

/-! Leveling and points (gamification_service.py). -/

/-- gamification_service.get_level_by_points: the first row of
select(UserLevel).where(min_points <= points).order_by(min_points.desc()),
i.e. the earliest stored level of maximal min_points among those at or below
the given total. (The call site in award_points spells this helper as
crud_gamification.get_level_by_points; its definition lives at lines 66-73 of
the service module itself.) -/
def firstByMinPointsDesc : List UserLevel → Option UserLevel
  | [] => none
  | l :: ls =>
    match firstByMinPointsDesc ls with
    | none => some l
    | some b => if l.min_points ≥ b.min_points then some l else some b

def get_level_by_points (levels : List UserLevel) (points : Int) : Option UserLevel :=
  firstByMinPointsDesc (levels.filter (fun l => l.min_points ≤ points))

/-- gamification_service.award_points: no-op for non-positive deltas, otherwise
add the delta and move to the eligible level when it is strictly higher than
the current one (or when no current level is set). -/
def award_points (levels : List UserLevel) (user : User) (points_to_add : Int) : User :=
  if points_to_add ≤ 0 then user
  else
    let user1 : User := { user with points := user.points + points_to_add }
    match get_level_by_points levels user1.points with
    | none => user1
    | some eligible =>
      if user1.level_id ≠ some eligible.id then
        match user1.level with
        | none => { user1 with level_id := some eligible.id, level := some eligible }
        | some cur =>
          if eligible.min_points > cur.min_points then
            { user1 with level_id := some eligible.id, level := some eligible }
          else user1
      else user1

/-! Streaks (gamification_service.update_daily_streak, crud_user helpers). -/

/-- crud_user.get_or_create_user_streak: fetch the streak row, creating it
with its column defaults when absent. Returns the row and the table. -/
def get_or_create_user_streak (streaks : List UserStreak) (user_id : Id) :
    UserStreak × List UserStreak :=
  match streaks.find? (fun s => s.user_id == user_id) with
  | some s => (s, streaks)
  | none =>
    let s : UserStreak := { user_id := user_id }
    (s, streaks ++ [s])

/-- In-place mutation of the streak row keyed by user_id (primary key). -/
def streaksReplace (streaks : List UserStreak) (s : UserStreak) : List UserStreak :=
  streaks.map (fun t => if t.user_id = s.user_id then s else t)

/-- Branch logic of update_daily_streak (gamification_service.py 123-179):
given today's date, return the updated streak row together with the bonus
points the function goes on to award (0 meaning no award call is made). -/
def streak_step (today : Int) (s : UserStreak) : UserStreak × Int :=
  if s.last_completed_date = some today then (s, 0)
  else
    let yesterday := today - 1
    if s.last_completed_date = some yesterday then
      let cur := s.current_streak + 1
      ({ s with last_completed_date := some today, current_streak := cur,
                longest_streak := max s.longest_streak cur }, min cur 5)
    else
      ({ s with last_completed_date := some today, current_streak := 1,
                longest_streak := max s.longest_streak 1 }, 1)

/-- gamification_service.update_daily_streak over the session state. The fail
flag injects an exception in the body; the function's own handler catches it
and returns None, leaving the state untouched. -/
def update_daily_streak (fail : Bool) (db : DB) (user : User) (today : Int) :
    DB × User :=
  if fail then (db, user)
  else
    let gs := get_or_create_user_streak db.streaks user.id
    let s := gs.1
    if s.last_completed_date = some today then
      ({ db with streaks := gs.2 }, user)
    else
      let st := streak_step today s
      let db2 : DB := { db with streaks := streaksReplace gs.2 st.1 }
      let user2 := if st.2 > 0 then award_points db2.levels user st.2 else user
      (db2, user2)

/-! Badges (gamification_service.check_and_award_badge, crud helpers). -/

/-- crud_gamification.get_badge_by_name. -/
def get_badge_by_name (badges : List Badge) (name : String) : Option Badge :=
  badges.find? (fun b => b.name == name)

/-- Badge row lookup by primary key, backing the link.badge relationship. -/
def get_badge (badges : List Badge) (badge_id : Id) : Option Badge :=
  badges.find? (fun b => b.id == badge_id)

/-- The check any(link.badge.name == badge_name for link in user.badges):
user.badges is the set of link rows carrying the user's id, and link.badge
joins each to its badge row. -/
def user_has_badge (db : DB) (user_id : Id) (badge_name : String) : Bool :=
  (db.badge_links.filter (fun l => l.user_id == user_id)).any
    (fun l =>
      match get_badge db.badges l.badge_id with
      | some b => b.name == badge_name
      | none => false)

/-- crud_user.add_badge_to_user: insert the award link row. -/
def add_badge_to_user (db : DB) (user_id : Id) (badge_id : Id) :
    UserBadgeLink × DB :=
  let link : UserBadgeLink := { user_id := user_id, badge_id := badge_id }
  (link, { db with badge_links := db.badge_links ++ [link] })

/-- gamification_service.check_and_award_badge. The failLink flag injects an
exception in add_badge_to_user, which the surrounding handler catches,
returning None with no link created. -/
def check_and_award_badge (failLink : Bool) (db : DB) (user : User)
    (badge_name : String) (check_existing : Bool) : Option UserBadgeLink × DB :=
  if check_existing && user_has_badge db user.id badge_name then (none, db)
  else
    match get_badge_by_name db.badges badge_name with
    | none => (none, db)
    | some badge_to_award =>
      if failLink then (none, db)
      else
        let ld := add_badge_to_user db user.id badge_to_award.id
        (some ld.1, ld.2)

/-! Progress records (crud_roadmap.create_user_progress). -/

/-- crud_roadmap.get_user_progress_for_item: first row matching the triple. -/
def get_user_progress_for_item (progress : List UserProgress)
    (user_id : Id) (item_id : Id) (item_type : ItemTypeEnum) : Option UserProgress :=
  progress.find? (fun p =>
    decide (p.user_id = user_id ∧ p.item_id = item_id ∧ p.item_type = item_type))

/-- crud_roadmap.create_user_progress: upsert keyed on the triple
(user_id, item_id, item_type). The first matching row is updated in place:
completed_at is filled only when it was previously null and the incoming value
is non-null, in which case a non-null incoming meta_data also replaces the
stored one; with no matching row a fresh row is inserted. -/
def create_user_progress : List UserProgress → UserProgressCreate → List UserProgress
  | [], pin =>
    [{ user_id := pin.user_id, item_id := pin.item_id, item_type := pin.item_type,
       completed_at := pin.completed_at, meta_data := pin.meta_data }]
  | p :: ps, pin =>
    if p.user_id = pin.user_id ∧ p.item_id = pin.item_id ∧ p.item_type = pin.item_type then
      (if p.completed_at = none ∧ pin.completed_at ≠ none then
        { p with completed_at := pin.completed_at,
                 meta_data := if pin.meta_data ≠ none then pin.meta_data else p.meta_data }
      else p) :: ps
    else p :: create_user_progress ps pin

/-! Quiz scoring and submission (progress_service.submit_quiz). -/

/-- answers.get(str(q.id), []): dictionary lookup with an empty default. -/
def answersGet (answers : List (String × List String)) (k : String) : List String :=
  match answers.find? (fun e => e.1 == k) with
  | some e => e.2
  | none => []

/-- set(user_answer_keys) == set(q.correct_option_keys): order-independent
equality of the two key collections. -/
def sameKeySet (a b : List String) : Bool :=
  a.all (fun x => b.contains x) && b.all (fun x => a.contains x)

/-- The loop counting questions whose submitted key set equals the correct
key set (progress_service.py 104-110). -/
def correct_answers_count (questions : List QuizQuestion)
    (answers : List (String × List String)) : Nat :=
  (questions.filter (fun q =>
    sameKeySet (answersGet answers q.id) q.correct_option_keys)).length

/-- Score computation of submit_quiz (progress_service.py 101-113): matching
count over total, and 0.0 for a quiz with no questions (warning only). -/
def quizScore (quiz : Quiz) (answers : List (String × List String)) : ℚ :=
  if quiz.questions.isEmpty then 0
  else (correct_answers_count quiz.questions answers : ℚ) / (quiz.questions.length : ℚ)

/-- passed = score >= 0.7 (progress_service.py 116). -/
def quizPassed (quiz : Quiz) (answers : List (String × List String)) : Bool :=
  decide (quizScore quiz answers ≥ 0.7)

/-- Point awarding rule of submit_quiz step 5 (progress_service.py 136-147):
base reward plus int(score * 5) on a pass, int(score * points_reward * 0.5)
on a non-zero failing score, otherwise nothing. -/
def quiz_points_to_award (quiz : Quiz) (answers : List (String × List String)) : Int :=
  let score := quizScore quiz answers
  if quizPassed quiz answers then quiz.points_reward + pyInt (score * 5)
  else if score > 0 then pyInt (score * (quiz.points_reward : ℚ) * 0.5)
  else 0

/-- crud_roadmap.get_quiz_with_questions. -/
def get_quiz_with_questions (quizzes : List Quiz) (quiz_id : Id) : Option Quiz :=
  quizzes.find? (fun q => q.id == quiz_id)

/-- Injected persistence-layer exceptions for the side-effect steps of
submit_quiz that run after the attempt row is added to the session. -/
structure FailSpec where
  failProgress : Bool := false
  failAward : Bool := false
  failStreak : Bool := false
  failBadgeLink : Bool := false
deriving DecidableEq

/-- Observable outcome of submit_quiz: notFound is the raised and re-raised
ValueError for a missing quiz; failure is the generic exception handler's
return None; ok carries the returned attempt and the session state. -/
inductive SubmitOutcome where
  | notFound
  | failure
  | ok (attempt : UserQuizAttempt) (db : DB) (user : User)
deriving DecidableEq

/-- Step 7 of progress_service.submit_quiz (badge checks on a pass), factored
out of the submission pipeline: on a pass award "Quiz Taker" and, for a
perfect score, "Perfect Score". -/
def submit_quiz_badges (failLink : Bool) (passed : Bool) (score : ℚ)
    (db : DB) (user : User) : DB :=
  if passed then
    let db4 := (check_and_award_badge failLink db user "Quiz Taker" true).2
    if score = 1 then (check_and_award_badge failLink db4 user "Perfect Score" true).2
    else db4
  else db

/-- progress_service.submit_quiz: score, attempt row, progress upsert, point
award, streak update and badge checks, in source order. An injected exception
at the progress or award step is caught by the function's own generic handler
(return None); exceptions at the streak or badge step are caught inside the
respective callee and the run continues. -/
def submit_quiz (fs : FailSpec) (db : DB) (user : User) (quiz_id : Id)
    (answers : List (String × List String)) (today : Int) (now : Int) : SubmitOutcome :=
  match get_quiz_with_questions db.quizzes quiz_id with
  | none => SubmitOutcome.notFound
  | some quiz =>
    let score := quizScore quiz answers
    let passed := quizPassed quiz answers
    let attempt : UserQuizAttempt :=
      { id := db.next_id, user_id := user.id, quiz_id := quiz_id, score := score,
        answers := answers, passed := passed, completed_at := now }
    let db1 : DB := { db with attempts := db.attempts ++ [attempt], next_id := db.next_id + 1 }
    if fs.failProgress then SubmitOutcome.failure
    else
      let pin : UserProgressCreate :=
        { user_id := user.id, item_id := quiz_id, item_type := ItemTypeEnum.QUIZ,
          completed_at := some attempt.completed_at,
          meta_data := some { attempt_id := some attempt.id, score := some score,
                              passed := some passed } }
      let db2 : DB := { db1 with progress := create_user_progress db1.progress pin }
      let points_to_award := quiz_points_to_award quiz answers
      if fs.failAward ∧ 0 < points_to_award then SubmitOutcome.failure
      else
        let user1 :=
          if 0 < points_to_award then award_points db2.levels user points_to_award else user
        let su := update_daily_streak fs.failStreak db2 user1 today
        SubmitOutcome.ok attempt
          (submit_quiz_badges fs.failBadgeLink passed score su.1 su.2) su.2

/-! Assignment submission and grading (progress_service.py). -/

/-- crud_roadmap.get_assignment. -/
def get_assignment (assignments : List Assignment) (assignment_id : Id) : Option Assignment :=
  assignments.find? (fun a => a.id == assignment_id)

/-- Outcome of submit_assignment: the raised ValueError for a missing
assignment, or the created submission with the session state. -/
inductive SubmissionOutcome where
  | notFound
  | ok (submission : UserAssignmentSubmission) (db : DB) (user : User)
deriving DecidableEq

/-- progress_service.submit_assignment: submission row, progress upsert,
submission-credit award of int(points_reward * 0.25), streak update. -/
def submit_assignment (db : DB) (user : User) (assignment_id : Id)
    (submission_content : String) (today : Int) (now : Int) : SubmissionOutcome :=
  match get_assignment db.assignments assignment_id with
  | none => SubmissionOutcome.notFound
  | some assignment =>
    let submission : UserAssignmentSubmission :=
      { id := db.next_id, user_id := user.id, assignment_id := assignment_id,
        submitted_at := now, submission_content := some submission_content }
    let db1 : DB := { db with submissions := db.submissions ++ [submission],
                              next_id := db.next_id + 1 }
    let pin : UserProgressCreate :=
      { user_id := user.id, item_id := assignment_id, item_type := ItemTypeEnum.ASSIGNMENT,
        completed_at := some submission.submitted_at,
        meta_data := some { submission_id := some submission.id,
                            status := some "submitted" } }
    let db2 : DB := { db1 with progress := create_user_progress db1.progress pin }
    let submission_points := pyInt ((assignment.points_reward : ℚ) * 0.25)
    let user1 :=
      if submission_points > 0 then award_points db2.levels user submission_points else user
    let su := update_daily_streak false db2 user1 today
    SubmissionOutcome.ok submission su.1 su.2

/-- crud_roadmap.get_assignment_submission. -/
def get_assignment_submission (submissions : List UserAssignmentSubmission)
    (submission_id : Id) : Option UserAssignmentSubmission :=
  submissions.find? (fun s => s.id == submission_id)

/-- crud_roadmap.update_assignment_submission for the three fields
grade_assignment always passes; graded_at is stamped when status or grade
actually changed. -/
def update_assignment_submission (s : UserAssignmentSubmission) (status : String)
    (grade : Option ℚ) (feedback : Option String) (now : Int) : UserAssignmentSubmission :=
  let s1 := { s with status := status, grade := grade, feedback := feedback }
  if s.status ≠ status ∨ s.grade ≠ grade then { s1 with graded_at := some now } else s1

/-- In-place mutation of a submission row by primary key. -/
def submissionsReplace (submissions : List UserAssignmentSubmission)
    (s : UserAssignmentSubmission) : List UserAssignmentSubmission :=
  submissions.map (fun t => if t.id = s.id then s else t)

/-- crud_user.get_user. -/
def get_user (users : List User) (user_id : Id) : Option User :=
  users.find? (fun u => u.id == user_id)

/-- In-place mutation of a user row by primary key. -/
def usersReplace (users : List User) (u : User) : List User :=
  users.map (fun t => if t.id = u.id then u else t)

/-- The empty metadata dictionary, used when a progress row has none yet. -/
def emptyMeta : MetaData := {}

/-- Step 3 of grade_assignment: merge status and grade into the meta_data of
the first progress row for the triple, if one exists (warning otherwise). -/
def update_progress_meta : List UserProgress → Id → Id → ItemTypeEnum → String →
    Option ℚ → List UserProgress
  | [], _, _, _, _, _ => []
  | p :: ps, user_id, item_id, item_type, status, grade =>
    if p.user_id = user_id ∧ p.item_id = item_id ∧ p.item_type = item_type then
      let m : MetaData := p.meta_data.getD emptyMeta
      { p with meta_data := some { m with status := some status, grade := grade } } :: ps
    else p :: update_progress_meta ps user_id item_id item_type status grade

/-- Outcome of grade_assignment: the raised ValueError for a missing
submission, or the updated submission with the session state. -/
inductive GradeOutcome where
  | notFound
  | ok (submission : UserAssignmentSubmission) (db : DB)
deriving DecidableEq

/-- progress_service.grade_assignment: update the submission, merge progress
metadata, and on a "passed" status award the remaining points (with the
high-grade bonus) and the completion badges, when user and assignment rows
are both found. -/
def grade_assignment (db : DB) (submission_id : Id) (status : String)
    (grade : Option ℚ) (feedback : Option String) (now : Int) : GradeOutcome :=
  match get_assignment_submission db.submissions submission_id with
  | none => GradeOutcome.notFound
  | some submission =>
    let updated := update_assignment_submission submission status grade feedback now
    let db1 : DB := { db with submissions := submissionsReplace db.submissions updated }
    let progress2 := update_progress_meta db1.progress updated.user_id
      updated.assignment_id ItemTypeEnum.ASSIGNMENT status grade
    let db2 : DB := { db1 with progress := progress2 }
    if status = "passed" then
      match get_user db2.users updated.user_id,
            get_assignment db2.assignments updated.assignment_id with
      | some user, some assignment =>
        let submission_points := pyInt ((assignment.points_reward : ℚ) * 0.25)
        let passing_points := assignment.points_reward - submission_points
        let passing_points2 :=
          match grade with
          | some g =>
            if g ≥ 0.9 then passing_points + pyInt ((assignment.points_reward : ℚ) * 0.1)
            else passing_points
          | none => passing_points
        let user1 :=
          if passing_points2 > 0 then award_points db2.levels user passing_points2 else user
        let db3 := (check_and_award_badge false db2 user1 "Assignment Complete" true).2
        let db4 :=
          if grade = some 1 then (check_and_award_badge false db3 user1 "Top Marks" true).2
          else db3
        GradeOutcome.ok updated { db4 with users := usersReplace db4.users user1 }
      | _, _ => GradeOutcome.ok updated db2
    else GradeOutcome.ok updated db2

/-! Observation functions used to state the properties. -/

/-- Scoring rule as the specification words it, for comparison with the
implementation: score is the count of questions whose submitted key set equals
the correct key set (order irrelevant, expressed through finite sets) over the
total question count, and 0 for a zero-question quiz. -/
def specQuizScore (quiz : Quiz) (answers : List (String × List String)) : ℚ :=
  if quiz.questions.length = 0 then 0
  else
    ((quiz.questions.filter (fun q =>
        decide ((answersGet answers q.id).toFinset =
          q.correct_option_keys.toFinset))).length : ℚ) /
      (quiz.questions.length : ℚ)

/-- Number of progress rows stored for one (user, item, type) triple. -/
def progress_count (progress : List UserProgress) (user_id : Id) (item_id : Id)
    (it : ItemTypeEnum) : Nat :=
  (progress.filter (fun p =>
    decide (p.user_id = user_id ∧ p.item_id = item_id ∧ p.item_type = it))).length

/-- Number of award-link rows a user holds for badges of a given name. -/
def badge_link_count (db : DB) (user_id : Id) (badge_name : String) : Nat :=
  ((db.badge_links.filter (fun l => l.user_id == user_id)).filter (fun l =>
    match get_badge db.badges l.badge_id with
    | some b => b.name == badge_name
    | none => false)).length

/-- Whether a submit outcome is a successful return of the attempt. -/
def submitIsOk : SubmitOutcome → Bool
  | SubmitOutcome.ok _ _ _ => true
  | _ => false

/-- Attempt rows in the session state of a successful outcome. -/
def submitAttemptsCount : SubmitOutcome → Nat
  | SubmitOutcome.ok _ db _ => db.attempts.length
  | _ => 0

/-- Award-link rows in the session state of a successful outcome. -/
def submitBadgeLinkCount : SubmitOutcome → Nat
  | SubmitOutcome.ok _ db _ => db.badge_links.length
  | _ => 0

/-- Passed flag of the attempt returned by a successful outcome. -/
def submitPassed : SubmitOutcome → Bool
  | SubmitOutcome.ok a _ _ => a.passed
  | _ => false

/-- Bonus points update_daily_streak pays out, as a function of the streak
table: zero when the injected failure fires or the record is already on
today, otherwise the positive streak_step bonus. -/
def streak_bonus (f : Bool) (streaks : List UserStreak) (uid : Id) (today : Int) : Int :=
  if f then 0
  else
    let s := (get_or_create_user_streak streaks uid).1
    if s.last_completed_date = some today then 0
    else if (streak_step today s).2 > 0 then (streak_step today s).2 else 0

/-- Concrete state for the failure-injection scenario: one quiz whose single
question has no correct option keys (so an empty submission scores 1.0), and
both quiz badges defined. -/
def quizC5 : Quiz :=
  { id := 1, title := "quiz", points_reward := 5,
    questions := [{ id := "q1", correct_option_keys := [] }] }

def dbC5 : DB :=
  { badges := [{ id := 1, name := "Quiz Taker" }, { id := 2, name := "Perfect Score" }],
    quizzes := [quizC5], next_id := 100 }

def uC5 : User := { id := 7 }

/-- Concrete four-question quiz for the scoring scenario: three questions
answered with exactly the correct key sets, one mismatched. -/
def quizC4 : Quiz :=
  { id := 2, points_reward := 8,
    questions := [{ id := "10", correct_option_keys := ["a", "b"] },
                  { id := "11", correct_option_keys := ["c"] },
                  { id := "12", correct_option_keys := [] },
                  { id := "13", correct_option_keys := ["d"] }] }

def ansC4 : List (String × List String) :=
  [("10", ["b", "a"]), ("11", ["c"]), ("13", ["x"])]

/-- Concrete states for the assignment-flow scenario. -/
def assignC6 : Assignment := { id := 1, points_reward := 8 }

def dbC6sub : DB :=
  { assignments := [assignC6],
    streaks := [{ user_id := 5, current_streak := 1, longest_streak := 1,
                  last_completed_date := some 3 }] }

def subC6 : UserAssignmentSubmission :=
  { id := 9, user_id := 5, assignment_id := 1, submitted_at := 0 }

def dbC6grade : DB :=
  { assignments := [assignC6],
    users := [{ id := 5 }],
    submissions := [subC6],
    badges := [{ id := 21, name := "Assignment Complete" },
               { id := 22, name := "Top Marks" }] }

/-! Helper lemmas about level resolution. -/

theorem firstByMinPointsDesc_eq_none {ls : List UserLevel}
    (h : firstByMinPointsDesc ls = none) : ls = [] := by
  cases ls with
  | nil => rfl
  | cons l ls =>
    simp only [firstByMinPointsDesc] at h
    cases hls : firstByMinPointsDesc ls with
    | none => simp [hls] at h
    | some c =>
      simp only [hls] at h
      by_cases hc : l.min_points ≥ c.min_points
      · rw [if_pos hc] at h
        cases h
      · rw [if_neg hc] at h
        cases h

theorem firstByMinPointsDesc_mem {ls : List UserLevel} {b : UserLevel}
    (h : firstByMinPointsDesc ls = some b) : b ∈ ls := by
  induction ls generalizing b with
  | nil => simp [firstByMinPointsDesc] at h
  | cons l ls ih =>
    simp only [firstByMinPointsDesc] at h
    cases hls : firstByMinPointsDesc ls with
    | none =>
      simp only [hls] at h
      injection h with h
      simp [h]
    | some c =>
      simp only [hls] at h
      by_cases hc : l.min_points ≥ c.min_points
      · rw [if_pos hc] at h
        injection h with h
        simp [h]
      · rw [if_neg hc] at h
        injection h with h
        subst h
        exact List.mem_cons_of_mem _ (ih hls)

theorem firstByMinPointsDesc_max {ls : List UserLevel} {b : UserLevel}
    (h : firstByMinPointsDesc ls = some b) :
    ∀ l ∈ ls, l.min_points ≤ b.min_points := by
  induction ls generalizing b with
  | nil => simp [firstByMinPointsDesc] at h
  | cons l ls ih =>
    simp only [firstByMinPointsDesc] at h
    cases hls : firstByMinPointsDesc ls with
    | none =>
      simp only [hls] at h
      injection h with h
      subst h
      have : ls = [] := firstByMinPointsDesc_eq_none hls
      subst this
      intro x hx
      rcases List.mem_singleton.mp hx with rfl
      exact le_refl _
    | some c =>
      simp only [hls] at h
      by_cases hc : l.min_points ≥ c.min_points
      · rw [if_pos hc] at h
        injection h with h
        subst h
        intro x hx
        rcases List.mem_cons.mp hx with rfl | hx
        · exact le_refl _
        · exact le_trans (ih hls x hx) hc
      · rw [if_neg hc] at h
        injection h with h
        subst h
        intro x hx
        rcases List.mem_cons.mp hx with rfl | hx
        · exact le_of_not_le hc
        · exact ih hls x hx

theorem get_level_by_points_some {levels : List UserLevel} {points : Int}
    {b : UserLevel} (h : get_level_by_points levels points = some b) :
    b ∈ levels ∧ b.min_points ≤ points ∧
      ∀ l ∈ levels, l.min_points ≤ points → l.min_points ≤ b.min_points := by
  unfold get_level_by_points at h
  have hm := firstByMinPointsDesc_mem h
  have hmax := firstByMinPointsDesc_max h
  rw [List.mem_filter] at hm
  refine ⟨hm.1, by simpa using hm.2, ?_⟩
  intro l hl hlp
  exact hmax l (List.mem_filter.mpr ⟨hl, by simpa using hlp⟩)

/-! Helper lemmas about award_points. -/

theorem award_points_nonpos (levels : List UserLevel) (u : User) (d : Int)
    (hd : d ≤ 0) : award_points levels u d = u := by
  unfold award_points
  rw [if_pos hd]

theorem award_points_points (levels : List UserLevel) (u : User) (d : Int)
    (hd : 0 < d) : (award_points levels u d).points = u.points + d := by
  unfold award_points
  rw [if_neg (not_le.mpr hd)]
  dsimp only
  repeat' split
  all_goals rfl

theorem award_points_id (levels : List UserLevel) (u : User) (d : Int) :
    (award_points levels u d).id = u.id := by
  unfold award_points
  dsimp only
  repeat' split
  all_goals rfl

theorem award_points_level (levels : List UserLevel) (u : User) (d : Int)
    (hd : 0 < d) :
    ((award_points levels u d).level = u.level ∧
     (award_points levels u d).level_id = u.level_id) ∨
    ∃ el, (award_points levels u d).level = some el ∧
      (award_points levels u d).level_id = some el.id ∧
      el ∈ levels ∧ el.min_points ≤ u.points + d ∧
      (∀ l ∈ levels, l.min_points ≤ u.points + d → l.min_points ≤ el.min_points) ∧
      (∀ cur, u.level = some cur → cur.min_points < el.min_points) := by
  unfold award_points
  rw [if_neg (not_le.mpr hd)]
  dsimp only
  cases hgl : get_level_by_points levels (u.points + d) with
  | none => left; exact ⟨rfl, rfl⟩
  | some el =>
    dsimp only
    obtain ⟨hmem, hle, hmax⟩ := get_level_by_points_some hgl
    by_cases hid : u.level_id = some el.id
    · rw [if_neg (not_not_intro hid)]
      left
      exact ⟨rfl, rfl⟩
    · rw [if_pos hid]
      cases hlev : u.level with
      | none =>
        dsimp only
        right
        refine ⟨el, rfl, rfl, hmem, hle, hmax, ?_⟩
        intro cur hcur
        exact Option.noConfusion hcur
      | some cur =>
        dsimp only
        by_cases hcmp : el.min_points > cur.min_points
        · rw [if_pos hcmp]
          right
          refine ⟨el, rfl, rfl, hmem, hle, hmax, ?_⟩
          intro cur0 hcur0
          injection hcur0 with h0
          subst h0
          omega
        · rw [if_neg hcmp]
          left
          exact ⟨rfl, rfl⟩

theorem get_level_by_points_none {levels : List UserLevel} {points : Int}
    (h : get_level_by_points levels points = none) :
    ∀ l ∈ levels, ¬ l.min_points ≤ points := by
  unfold get_level_by_points at h
  have hnil := firstByMinPointsDesc_eq_none h
  intro l hl hle
  have hmem : l ∈ levels.filter (fun l => l.min_points ≤ points) :=
    List.mem_filter.mpr ⟨hl, by simpa using hle⟩
  rw [hnil] at hmem
  exact absurd hmem (List.not_mem_nil l)

theorem award_points_level_none (levels : List UserLevel) (u : User) (d : Int)
    (hd : 0 < d) (hgl : get_level_by_points levels (u.points + d) = none) :
    (award_points levels u d).level = u.level ∧
    (award_points levels u d).level_id = u.level_id := by
  unfold award_points
  rw [if_neg (not_le.mpr hd)]
  dsimp only
  rw [hgl]
  exact ⟨rfl, rfl⟩

theorem award_points_level_promote (levels : List UserLevel) (u : User) (d : Int)
    (el : UserLevel) (hd : 0 < d)
    (hgl : get_level_by_points levels (u.points + d) = some el)
    (hcoh : u.level_id = u.level.map (fun l => l.id))
    (hmem : ∀ cur, u.level = some cur → cur ∈ levels)
    (huniq : ∀ l1 ∈ levels, ∀ l2 ∈ levels, l1.id = l2.id → l1 = l2)
    (hhi : ∀ cur, u.level = some cur → cur.min_points < el.min_points) :
    (award_points levels u d).level = some el ∧
    (award_points levels u d).level_id = some el.id := by
  unfold award_points
  rw [if_neg (not_le.mpr hd)]
  dsimp only
  rw [hgl]
  dsimp only
  cases hlev : u.level with
  | none =>
    have hid : u.level_id = none := by rw [hcoh, hlev]; rfl
    rw [hid, if_pos (by simp)]
    exact ⟨rfl, rfl⟩
  | some cur =>
    have hlt := hhi cur hlev
    have hid : u.level_id = some cur.id := by rw [hcoh, hlev]; rfl
    have hne : cur.id ≠ el.id := by
      intro h
      have heq := huniq cur (hmem cur hlev) el (get_level_by_points_some hgl).1 h
      rw [heq] at hlt
      exact lt_irrefl _ hlt
    rw [hid, if_pos (by simpa using hne)]
    dsimp only
    by_cases hcmp : el.min_points > cur.min_points
    · rw [if_pos hcmp]
      exact ⟨rfl, rfl⟩
    · exact absurd hlt hcmp

theorem award_points_level_keep (levels : List UserLevel) (u : User) (d : Int)
    (el cur : UserLevel) (hd : 0 < d)
    (hgl : get_level_by_points levels (u.points + d) = some el)
    (hlev : u.level = some cur)
    (hle : el.min_points ≤ cur.min_points) :
    (award_points levels u d).level = u.level ∧
    (award_points levels u d).level_id = u.level_id := by
  unfold award_points
  rw [if_neg (not_le.mpr hd)]
  dsimp only
  rw [hgl]
  dsimp only
  by_cases hid : u.level_id = some el.id
  · rw [if_neg (not_not_intro hid)]
    exact ⟨rfl, rfl⟩
  · rw [if_pos hid, hlev]
    dsimp only
    by_cases hcmp : el.min_points > cur.min_points
    · exact absurd hcmp (not_lt.mpr hle)
    · rw [if_neg hcmp]
      exact ⟨rfl, rfl⟩


/-- C2: award_points with a non-positive delta leaves the user (points and
level) unchanged; with a positive delta it increases points by exactly the
delta (so points never decrease) and then resolves the level exactly as the
claim states: when no stored level has min_points at or below the new total
the level is untouched; otherwise, writing el for the resolved level (a
stored level of min_points at or below the new total and greatest among
those), the user's level and level_id ARE set to el whenever el is strictly
higher than the current level - in particular always when no current level
is set - and are left unchanged whenever they are not strictly below el.
Stated under the row invariants that level_id mirrors the level relationship
proxy, that the current level is a stored level row, and that stored level
ids are unique. -/
theorem award_points_spec (levels : List UserLevel) (u : User) (d : Int)
    (hcoh : u.level_id = u.level.map (fun l => l.id))
    (hmem : ∀ cur, u.level = some cur → cur ∈ levels)
    (huniq : ∀ l1 ∈ levels, ∀ l2 ∈ levels, l1.id = l2.id → l1 = l2) :
    (d ≤ 0 → award_points levels u d = u) ∧
    (0 < d →
      (award_points levels u d).points = u.points + d ∧
      u.points ≤ (award_points levels u d).points ∧
      (get_level_by_points levels (u.points + d) = none →
        (∀ l ∈ levels, ¬ l.min_points ≤ u.points + d) ∧
        (award_points levels u d).level = u.level ∧
        (award_points levels u d).level_id = u.level_id) ∧
      (∀ el, get_level_by_points levels (u.points + d) = some el →
        (el ∈ levels ∧ el.min_points ≤ u.points + d ∧
          (∀ l ∈ levels, l.min_points ≤ u.points + d → l.min_points ≤ el.min_points)) ∧
        ((∀ cur, u.level = some cur → cur.min_points < el.min_points) →
          (award_points levels u d).level = some el ∧
          (award_points levels u d).level_id = some el.id) ∧
        (∀ cur, u.level = some cur → el.min_points ≤ cur.min_points →
          (award_points levels u d).level = u.level ∧
          (award_points levels u d).level_id = u.level_id))) := by
  refine ⟨fun hd => award_points_nonpos levels u d hd, fun hd => ?_⟩
  have hp := award_points_points levels u d hd
  refine ⟨hp, by omega, ?_, ?_⟩
  · intro hgl
    exact ⟨get_level_by_points_none hgl, award_points_level_none levels u d hd hgl⟩
  · intro el hgl
    refine ⟨get_level_by_points_some hgl, ?_, ?_⟩
    · intro hhi
      exact award_points_level_promote levels u d el hd hgl hcoh hmem huniq hhi
    · intro cur hlev hle
      exact award_points_level_keep levels u d el cur hd hgl hlev hle

theorem award_points_spec_witness :
    (award_points
      [{ id := 1, name := "Bronze", min_points := 0 },
       { id := 2, name := "Silver", min_points := 10 }]
      { id := 7, points := 5, level_id := some 1,
        level := some { id := 1, name := "Bronze", min_points := 0 } } 10).points = 5 + 10 ∧
    (award_points
      [{ id := 1, name := "Bronze", min_points := 0 },
       { id := 2, name := "Silver", min_points := 10 }]
      { id := 7, points := 5, level_id := some 1,
        level := some { id := 1, name := "Bronze", min_points := 0 } } 10).level =
      some { id := 2, name := "Silver", min_points := 10 } ∧
    (award_points
      [{ id := 1, name := "Bronze", min_points := 0 },
       { id := 2, name := "Silver", min_points := 10 }]
      { id := 7, points := 5, level_id := some 1,
        level := some { id := 1, name := "Bronze", min_points := 0 } } 10).level_id =
      some 2 := by
  have h := award_points_spec
      [{ id := 1, name := "Bronze", min_points := 0 },
       { id := 2, name := "Silver", min_points := 10 }]
      { id := 7, points := 5, level_id := some 1,
        level := some { id := 1, name := "Bronze", min_points := 0 } } 10
      rfl
      (by
        intro cur hc
        injection hc with hc
        rw [← hc]
        exact List.mem_cons_self _ _)
      (by
        intro l1 h1 l2 h2 hid
        rcases List.mem_cons.mp h1 with rfl | h1
        · rcases List.mem_cons.mp h2 with rfl | h2
          · rfl
          · rcases List.mem_singleton.mp h2 with rfl
            exact absurd hid (by decide)
        · rcases List.mem_singleton.mp h1 with rfl
          rcases List.mem_cons.mp h2 with rfl | h2
          · exact absurd hid (by decide)
          · rcases List.mem_singleton.mp h2 with rfl
            rfl)
  have h2 := h.2 (by norm_num)
  have hgl : get_level_by_points
      [{ id := 1, name := "Bronze", min_points := 0 },
       { id := 2, name := "Silver", min_points := 10 }]
      (({ id := 7, points := 5, level_id := some 1,
          level := some { id := 1, name := "Bronze", min_points := 0 } } : User).points + 10) =
      some { id := 2, name := "Silver", min_points := 10 } := by decide
  have hpro := (h2.2.2.2 _ hgl).2.1 (by
    intro cur hc
    injection hc with hc
    rw [← hc]
    decide)
  exact ⟨h2.1, hpro.1, hpro.2⟩

/-! Helper lemma for locating the streak row. -/

theorem get_or_create_found {streaks : List UserStreak} {uid : Id} {s : UserStreak}
    (h : streaks.find? (fun t => t.user_id == uid) = some s) :
    get_or_create_user_streak streaks uid = (s, streaks) := by
  unfold get_or_create_user_streak
  rw [h]

/-- C3: update_daily_streak run on day today returns the streak unchanged with
no points awarded when the last completed date is already today; increments
the streak and awards min(new streak, 5) bonus points when it is yesterday;
and otherwise (including no prior date) resets the streak to 1 and awards 1
point; in the latter two cases longest_streak becomes the max of itself and
the new streak and the last completed date becomes today. Three consecutive
daily activities from a fresh record yield streak 3 and a 3-point bonus on
the third day. -/
theorem update_daily_streak_spec (db : DB) (u : User) (s : UserStreak) (today : Int)
    (hfind : db.streaks.find? (fun t => t.user_id == u.id) = some s) :
    (s.last_completed_date = some today →
      streak_step today s = (s, 0) ∧
      update_daily_streak false db u today = (db, u)) ∧
    (s.last_completed_date = some (today - 1) →
      streak_step today s =
        ({ s with last_completed_date := some today,
                  current_streak := s.current_streak + 1,
                  longest_streak := max s.longest_streak (s.current_streak + 1) },
         min (s.current_streak + 1) 5) ∧
      (0 ≤ s.current_streak →
        (update_daily_streak false db u today).2.points =
          u.points + min (s.current_streak + 1) 5)) ∧
    (s.last_completed_date ≠ some today → s.last_completed_date ≠ some (today - 1) →
      streak_step today s =
        ({ s with last_completed_date := some today, current_streak := 1,
                  longest_streak := max s.longest_streak 1 }, 1) ∧
      (update_daily_streak false db u today).2.points = u.points + 1) ∧
    (∀ (uid : Id) (D : Int),
      (streak_step (D + 2)
        (streak_step (D + 1) (streak_step D { user_id := uid }).1).1).1.current_streak = 3 ∧
      (streak_step (D + 2)
        (streak_step (D + 1) (streak_step D { user_id := uid }).1).1).2 = 3) := by
  have hg : get_or_create_user_streak db.streaks u.id = (s, db.streaks) :=
    get_or_create_found hfind
  refine ⟨?_, ?_, ?_, ?_⟩
  · intro h
    constructor
    · unfold streak_step
      rw [if_pos h]
    · unfold update_daily_streak
      rw [if_neg Bool.false_ne_true, hg]
      dsimp only
      rw [if_pos h]
  · intro h
    have hne : ¬s.last_completed_date = some today := by
      rw [h]
      simp only [Option.some.injEq]
      omega
    have hss : streak_step today s =
        ({ s with last_completed_date := some today,
                  current_streak := s.current_streak + 1,
                  longest_streak := max s.longest_streak (s.current_streak + 1) },
         min (s.current_streak + 1) 5) := by
      unfold streak_step
      rw [if_neg hne]
      dsimp only
      rw [if_pos h]
    refine ⟨hss, fun hcur => ?_⟩
    unfold update_daily_streak
    rw [if_neg Bool.false_ne_true, hg]
    dsimp only
    rw [if_neg hne, hss]
    dsimp only
    rw [if_pos (by omega : (0 : Int) < min (s.current_streak + 1) 5)]
    exact award_points_points _ u _ (by omega)
  · intro hne hne1
    have hss : streak_step today s =
        ({ s with last_completed_date := some today, current_streak := 1,
                  longest_streak := max s.longest_streak 1 }, 1) := by
      unfold streak_step
      rw [if_neg hne]
      dsimp only
      rw [if_neg hne1]
    refine ⟨hss, ?_⟩
    unfold update_daily_streak
    rw [if_neg Bool.false_ne_true, hg]
    dsimp only
    rw [if_neg hne, hss]
    dsimp only
    rw [if_pos (by omega : (0 : Int) < 1)]
    exact award_points_points _ u _ (by omega)
  · intro uid D
    have h0 : streak_step D ({ user_id := uid } : UserStreak) =
        ({ user_id := uid, current_streak := 1, longest_streak := 1,
           last_completed_date := some D }, 1) := by
      unfold streak_step
      rw [if_neg (by simp), if_neg (by simp)]
      norm_num
    have h1 : streak_step (D + 1)
        ({ user_id := uid, current_streak := 1, longest_streak := 1,
           last_completed_date := some D } : UserStreak) =
        ({ user_id := uid, current_streak := 2, longest_streak := 2,
           last_completed_date := some (D + 1) }, 2) := by
      unfold streak_step
      rw [if_neg (by simp)]
      dsimp only
      rw [if_pos (by rw [show D + 1 - 1 = D from by omega])]
      norm_num
    have h2 : streak_step (D + 2)
        ({ user_id := uid, current_streak := 2, longest_streak := 2,
           last_completed_date := some (D + 1) } : UserStreak) =
        ({ user_id := uid, current_streak := 3, longest_streak := 3,
           last_completed_date := some (D + 2) }, 3) := by
      unfold streak_step
      rw [if_neg (by simp)]
      dsimp only
      rw [if_pos (by rw [show D + 2 - 1 = D + 1 from by omega])]
      norm_num
    rw [h0]
    dsimp only
    rw [h1]
    dsimp only
    rw [h2]
    exact ⟨rfl, rfl⟩

theorem update_daily_streak_spec_witness :
    (update_daily_streak false
      { streaks := [{ user_id := 1, current_streak := 2, longest_streak := 2,
                      last_completed_date := some 9 }] }
      { id := 1 } 10).2.points = ({ id := 1 } : User).points + min ((2 : Int) + 1) 5 :=
  (((update_daily_streak_spec
      { streaks := [{ user_id := 1, current_streak := 2, longest_streak := 2,
                      last_completed_date := some 9 }] }
      { id := 1 }
      { user_id := 1, current_streak := 2, longest_streak := 2,
        last_completed_date := some 9 } 10 rfl).2.1
    (by norm_num)).2) (by norm_num)


/-! Helper lemmas about quiz scoring. -/

theorem sameKeySet_iff (a b : List String) :
    sameKeySet a b = true ↔ a.toFinset = b.toFinset := by
  unfold sameKeySet
  simp only [Bool.and_eq_true, List.all_eq_true, decide_eq_true_eq, List.elem_iff,
    Finset.ext_iff, List.mem_toFinset]
  constructor
  · rintro ⟨h1, h2⟩ x
    exact ⟨fun hx => h1 x hx, fun hx => h2 x hx⟩
  · intro h
    exact ⟨fun x hx => (h x).1 hx, fun x hx => (h x).2 hx⟩

theorem correct_answers_count_eq_spec (questions : List QuizQuestion)
    (answers : List (String × List String)) :
    correct_answers_count questions answers =
      (questions.filter (fun q =>
        decide ((answersGet answers q.id).toFinset =
          q.correct_option_keys.toFinset))).length := by
  unfold correct_answers_count
  congr 1
  apply List.filter_congr
  intro q _
  rw [Bool.eq_iff_iff, sameKeySet_iff, decide_eq_true_eq]

theorem quizScore_eq_spec (quiz : Quiz) (answers : List (String × List String)) :
    quizScore quiz answers = specQuizScore quiz answers := by
  unfold quizScore specQuizScore
  rw [correct_answers_count_eq_spec]
  by_cases h : quiz.questions.length = 0
  · rw [if_pos (List.isEmpty_iff_length_eq_zero.mpr h), if_pos h]
  · rw [if_neg (fun hc => h (List.isEmpty_iff_length_eq_zero.mp hc)), if_neg h]

theorem quizScore_nonneg (quiz : Quiz) (answers : List (String × List String)) :
    0 ≤ quizScore quiz answers := by
  unfold quizScore
  split
  · exact le_refl 0
  · positivity

theorem quizScore_empty (quiz : Quiz) (answers : List (String × List String))
    (h : quiz.questions = []) : quizScore quiz answers = 0 := by
  unfold quizScore
  rw [if_pos (by rw [h]; rfl)]

theorem quizScore_of_count (quiz : Quiz) (answers : List (String × List String))
    (n c : Nat) (hn : quiz.questions.length = n) (hn0 : n ≠ 0)
    (hc : correct_answers_count quiz.questions answers = c) :
    quizScore quiz answers = (c : ℚ) / (n : ℚ) := by
  unfold quizScore
  rw [if_neg (fun hc0 => hn0 (by rw [← hn]; exact List.isEmpty_iff_length_eq_zero.mp hc0)),
    hc, hn]

/-! Shape lemmas for the side-effecting steps of submit_quiz. -/

theorem update_daily_streak_shape (f : Bool) (db : DB) (u : User) (today : Int) :
    ∃ st, (update_daily_streak f db u today).1 = { db with streaks := st } := by
  unfold update_daily_streak
  split
  · exact ⟨db.streaks, rfl⟩
  · dsimp only
    split
    · exact ⟨_, rfl⟩
    · exact ⟨_, rfl⟩

theorem check_and_award_badge_shape (f : Bool) (db : DB) (u : User) (n : String)
    (c : Bool) :
    ∃ L, (check_and_award_badge f db u n c).2 =
        { db with badge_links := db.badge_links ++ L } ∧
      (f = true → L = []) ∧
      (get_badge_by_name db.badges n = none → L = []) := by
  unfold check_and_award_badge
  by_cases hx : (c && user_has_badge db u.id n) = true
  · rw [if_pos hx]
    exact ⟨[], by rw [List.append_nil], fun _ => rfl, fun _ => rfl⟩
  · rw [if_neg hx]
    split
    · exact ⟨[], by rw [List.append_nil], fun _ => rfl, fun _ => rfl⟩
    · rename_i badge hb
      by_cases hf : f = true
      · rw [if_pos hf]
        refine ⟨[], by rw [List.append_nil], fun _ => rfl, fun hnone => ?_⟩
        rw [hnone] at hb
      · rw [if_neg hf]
        refine ⟨[{ user_id := u.id, badge_id := badge.id }], rfl,
          fun hft => absurd hft hf, fun hnone => ?_⟩
        rw [hnone] at hb
        exact Option.noConfusion hb


theorem check_and_award_badge_attempts (f : Bool) (db : DB) (u : User)
    (n : String) (c : Bool) :
    ((check_and_award_badge f db u n c).2).attempts = db.attempts := by
  unfold check_and_award_badge
  repeat' split
  all_goals rfl

theorem check_and_award_badge_of_missing (f : Bool) (db : DB) (u : User)
    (n : String) (c : Bool) (hn : get_badge_by_name db.badges n = none) :
    check_and_award_badge f db u n c = (none, db) := by
  unfold check_and_award_badge
  split
  · rfl
  · rw [hn]

theorem check_and_award_badge_of_faillink (db : DB) (u : User)
    (n : String) (c : Bool) :
    check_and_award_badge true db u n c = (none, db) := by
  unfold check_and_award_badge
  split
  · rfl
  · split
    · rfl
    · rw [if_pos rfl]

theorem update_daily_streak_attempts (f : Bool) (db : DB) (u : User) (t : Int) :
    ((update_daily_streak f db u t).1).attempts = db.attempts := by
  unfold update_daily_streak
  dsimp only
  repeat' split
  all_goals rfl

theorem update_daily_streak_badges (f : Bool) (db : DB) (u : User) (t : Int) :
    ((update_daily_streak f db u t).1).badges = db.badges := by
  unfold update_daily_streak
  dsimp only
  repeat' split
  all_goals rfl

theorem update_daily_streak_badge_links (f : Bool) (db : DB) (u : User) (t : Int) :
    ((update_daily_streak f db u t).1).badge_links = db.badge_links := by
  unfold update_daily_streak
  dsimp only
  repeat' split
  all_goals rfl

theorem submit_quiz_badges_attempts (f p : Bool) (s : ℚ) (db : DB) (u : User) :
    (submit_quiz_badges f p s db u).attempts = db.attempts := by
  unfold submit_quiz_badges
  dsimp only
  repeat' split
  all_goals simp only [check_and_award_badge_attempts]

theorem submit_quiz_badges_of_missing (f p : Bool) (s : ℚ) (db : DB) (u : User)
    (hqt : get_badge_by_name db.badges "Quiz Taker" = none)
    (hps : get_badge_by_name db.badges "Perfect Score" = none) :
    submit_quiz_badges f p s db u = db := by
  unfold submit_quiz_badges
  rw [check_and_award_badge_of_missing f db u _ true hqt]
  dsimp only
  rw [check_and_award_badge_of_missing f db u _ true hps]
  repeat' split
  all_goals rfl

theorem submit_quiz_badges_of_faillink (p : Bool) (s : ℚ) (db : DB) (u : User) :
    submit_quiz_badges true p s db u = db := by
  unfold submit_quiz_badges
  rw [check_and_award_badge_of_faillink db u _ true]
  dsimp only
  rw [check_and_award_badge_of_faillink db u _ true]
  repeat' split
  all_goals rfl

/-- Central run lemma for submit_quiz: with the quiz present and no injected
failure at the progress or award step, the call returns the attempt built
from the computed score, appends exactly that attempt row, and the badge
phase adds no link when its persistence fails or when the badge definitions
are missing. -/
theorem submit_quiz_run (fs : FailSpec) (db : DB) (u : User) (qid : Id)
    (ans : List (String × List String)) (today now : Int) (quiz : Quiz)
    (hq : get_quiz_with_questions db.quizzes qid = some quiz)
    (hfp : fs.failProgress = false) (hfa : fs.failAward = false) :
    ∃ db' u',
      submit_quiz fs db u qid ans today now =
        SubmitOutcome.ok
          { id := db.next_id, user_id := u.id, quiz_id := qid,
            score := quizScore quiz ans, answers := ans,
            passed := quizPassed quiz ans, completed_at := now } db' u' ∧
      db'.attempts = db.attempts ++
        [{ id := db.next_id, user_id := u.id, quiz_id := qid,
           score := quizScore quiz ans, answers := ans,
           passed := quizPassed quiz ans, completed_at := now }] ∧
      (fs.failBadgeLink = true → db'.badge_links = db.badge_links) ∧
      (get_badge_by_name db.badges "Quiz Taker" = none →
       get_badge_by_name db.badges "Perfect Score" = none →
       db'.badge_links = db.badge_links) := by
  unfold submit_quiz
  rw [hq]
  dsimp only
  rw [hfp]
  rw [if_neg Bool.false_ne_true]
  rw [hfa]
  rw [if_neg (by simp)]
  refine ⟨_, _, rfl, ?_, ?_, ?_⟩
  · rw [submit_quiz_badges_attempts, update_daily_streak_attempts]
  · intro hf
    rw [hf, submit_quiz_badges_of_faillink, update_daily_streak_badge_links]
  · intro hqt hps
    rw [submit_quiz_badges_of_missing _ _ _ _ _
        (by rw [update_daily_streak_badges]; exact hqt)
        (by rw [update_daily_streak_badges]; exact hps),
      update_daily_streak_badge_links]


/-- C1: for every existing quiz and submitted answers map, submit_quiz returns
an attempt whose score is the number of questions whose submitted key set
equals the correct key set (as sets, order irrelevant) divided by the question
count, with score 0.0 and no exception for a zero-question quiz, and whose
passed flag holds exactly when the score is at least 0.70. -/
theorem submit_quiz_score_spec (db : DB) (u : User) (qid : Id)
    (ans : List (String × List String)) (today now : Int) (quiz : Quiz)
    (hq : get_quiz_with_questions db.quizzes qid = some quiz) :
    ∃ a db' u', submit_quiz {} db u qid ans today now = SubmitOutcome.ok a db' u' ∧
      a.score = specQuizScore quiz ans ∧
      (a.passed = true ↔ specQuizScore quiz ans ≥ 0.7) ∧
      (quiz.questions = [] → a.score = 0 ∧ a.passed = false) := by
  obtain ⟨db', u', hrun, -, -, -⟩ :=
    submit_quiz_run {} db u qid ans today now quiz hq rfl rfl
  refine ⟨_, db', u', hrun, ?_, ?_, ?_⟩
  · exact quizScore_eq_spec quiz ans
  · show quizPassed quiz ans = true ↔ _
    unfold quizPassed
    rw [quizScore_eq_spec]
    exact decide_eq_true_iff
  · intro hempty
    constructor
    · exact quizScore_empty quiz ans hempty
    · show quizPassed quiz ans = false
      unfold quizPassed
      rw [quizScore_empty quiz ans hempty]
      norm_num

theorem submit_quiz_score_spec_witness :
    ∃ a db' u',
      submit_quiz {} { quizzes := [{ id := 1 }] } { id := 2 } 1 [] 0 0 =
        SubmitOutcome.ok a db' u' ∧
      a.score = specQuizScore { id := 1 } [] ∧
      (a.passed = true ↔ specQuizScore { id := 1 } [] ≥ 0.7) ∧
      (({ id := 1 } : Quiz).questions = [] → a.score = 0 ∧ a.passed = false) :=
  submit_quiz_score_spec { quizzes := [{ id := 1 }] } { id := 2 } 1 [] 0 0
    { id := 1 } rfl

/-- C4: the points submit_quiz awards beyond the streak bonus are
points_reward plus floor(score * 5) on a pass, floor(score * points_reward *
0.5) on a non-zero failing score, and zero otherwise; a 4-question quiz with
3 exact matches yields score 0.75, a pass, and points_reward + 3 points. -/
theorem quiz_points_award_spec (quiz : Quiz) (ans : List (String × List String))
    (hR : 0 ≤ quiz.points_reward) :
    (quizPassed quiz ans = true →
      quiz_points_to_award quiz ans =
        quiz.points_reward + ⌊quizScore quiz ans * 5⌋) ∧
    (quizPassed quiz ans = false → 0 < quizScore quiz ans →
      quiz_points_to_award quiz ans =
        ⌊quizScore quiz ans * (quiz.points_reward : ℚ) * 0.5⌋) ∧
    (quizScore quiz ans = 0 → quiz_points_to_award quiz ans = 0) ∧
    (quiz.questions.length = 4 → correct_answers_count quiz.questions ans = 3 →
      quizScore quiz ans = 3 / 4 ∧ quizPassed quiz ans = true ∧
      quiz_points_to_award quiz ans = quiz.points_reward + 3) := by
  have hpart1 : quizPassed quiz ans = true →
      quiz_points_to_award quiz ans =
        quiz.points_reward + ⌊quizScore quiz ans * 5⌋ := by
    intro hp
    unfold quiz_points_to_award
    dsimp only
    rw [if_pos hp]
    unfold pyInt
    rw [if_pos (mul_nonneg (quizScore_nonneg quiz ans) (by norm_num))]
  refine ⟨hpart1, ?_, ?_, ?_⟩
  · intro hp h0
    unfold quiz_points_to_award
    dsimp only
    rw [if_neg (by rw [hp]; exact Bool.false_ne_true), if_pos h0]
    unfold pyInt
    rw [if_pos (mul_nonneg (mul_nonneg (quizScore_nonneg quiz ans)
      (by exact_mod_cast hR)) (by norm_num))]
  · intro h0
    have hpf : quizPassed quiz ans = false := by
      unfold quizPassed
      rw [h0]
      norm_num
    unfold quiz_points_to_award
    dsimp only
    rw [if_neg (by rw [hpf]; exact Bool.false_ne_true),
      if_neg (by rw [h0]; norm_num)]
  · intro h4 h3
    have hsc : quizScore quiz ans = 3 / 4 := by
      rw [quizScore_of_count quiz ans 4 3 h4 (by norm_num) h3]
      norm_num
    have hp : quizPassed quiz ans = true := by
      unfold quizPassed
      rw [hsc]
      norm_num
    refine ⟨hsc, hp, ?_⟩
    rw [hpart1 hp, hsc]
    norm_num

theorem quiz_points_award_spec_witness :
    quizScore quizC4 ansC4 = 3 / 4 ∧ quizPassed quizC4 ansC4 = true ∧
      quiz_points_to_award quizC4 ansC4 = quizC4.points_reward + 3 :=
  (quiz_points_award_spec quizC4 ansC4 (by decide)).2.2.2 rfl rfl

/-- C10: submit_quiz grades a question with no entry in the answers map as if
the empty key set had been selected, so an unanswered question whose correct
key set is empty counts as correct, and entries for unknown question ids do
not affect the score. -/
theorem submit_quiz_missing_answers_spec :
    (∀ (ans : List (String × List String)) (q : QuizQuestion),
      ans.find? (fun e => e.1 == q.id) = none →
      (sameKeySet (answersGet ans q.id) q.correct_option_keys = true ↔
        q.correct_option_keys = [])) ∧
    (∀ (quiz : Quiz) (ans : List (String × List String)) (k : String)
      (v : List String),
      (∀ q ∈ quiz.questions, q.id ≠ k) →
      quizScore quiz ((k, v) :: ans) = quizScore quiz ans) := by
  constructor
  · intro ans q hfind
    unfold answersGet
    rw [hfind]
    unfold sameKeySet
    cases q.correct_option_keys with
    | nil => simp
    | cons x xs => simp
  · intro quiz ans k v hq
    unfold quizScore
    have hc : correct_answers_count quiz.questions ((k, v) :: ans) =
        correct_answers_count quiz.questions ans := by
      unfold correct_answers_count
      congr 1
      apply List.filter_congr
      intro q hmem
      have hget : answersGet ((k, v) :: ans) q.id = answersGet ans q.id := by
        unfold answersGet
        rw [List.find?_cons_of_neg]
        simp only [beq_iff_eq]
        exact fun h => hq q hmem h.symm
      rw [hget]
    rw [hc]

theorem submit_quiz_missing_answers_spec_witness :
    (sameKeySet (answersGet [] "a") ([] : List String) = true ↔
      ([] : List String) = []) ∧
    quizScore { id := 3, questions := [{ id := "q1", correct_option_keys := ["x"] }] }
        [("zz", ["y"])] =
      quizScore { id := 3, questions := [{ id := "q1", correct_option_keys := ["x"] }] }
        [] :=
  ⟨submit_quiz_missing_answers_spec.1 [] { id := "a", correct_option_keys := [] } rfl,
   submit_quiz_missing_answers_spec.2
     { id := 3, questions := [{ id := "q1", correct_option_keys := ["x"] }] }
     [] "zz" ["y"] (by decide)⟩


/-- C9: submit_quiz reports the raised not-found error exactly when the
referenced quiz does not exist, for every failure injection; and when the
quiz exists, missing badge definitions are skipped without aborting: the
call still returns the attempt and the award links are untouched. -/
theorem submit_quiz_not_found_spec :
    (∀ (fs : FailSpec) (db : DB) (u : User) (qid : Id)
       (ans : List (String × List String)) (today now : Int),
      submit_quiz fs db u qid ans today now = SubmitOutcome.notFound ↔
        get_quiz_with_questions db.quizzes qid = none) ∧
    (∀ (db : DB) (u : User) (qid : Id) (ans : List (String × List String))
       (today now : Int) (quiz : Quiz),
      get_quiz_with_questions db.quizzes qid = some quiz →
      get_badge_by_name db.badges "Quiz Taker" = none →
      get_badge_by_name db.badges "Perfect Score" = none →
      ∃ a db' u',
        submit_quiz {} db u qid ans today now = SubmitOutcome.ok a db' u' ∧
        db'.badge_links = db.badge_links) := by
  constructor
  · intro fs db u qid ans today now
    cases hq : get_quiz_with_questions db.quizzes qid with
    | none =>
      unfold submit_quiz
      rw [hq]
      simp
    | some quiz =>
      unfold submit_quiz
      rw [hq]
      dsimp only
      constructor
      · intro h
        split at h
        · cases h
        · split at h
          · cases h
          · cases h
      · intro h
        cases h
  · intro db u qid ans today now quiz hq hqt hps
    obtain ⟨db', u', hrun, -, -, hmiss⟩ :=
      submit_quiz_run {} db u qid ans today now quiz hq rfl rfl
    exact ⟨_, db', u', hrun, hmiss hqt hps⟩

theorem submit_quiz_not_found_spec_witness :
    (submit_quiz {} {} { id := 4 } 9 [] 0 0 = SubmitOutcome.notFound ↔
      get_quiz_with_questions (DB.quizzes {}) 9 = none) ∧
    ∃ a db' u',
      submit_quiz {} { quizzes := [{ id := 9 }] } { id := 4 } 9 [] 0 0 =
        SubmitOutcome.ok a db' u' ∧
      db'.badge_links = DB.badge_links { quizzes := [{ id := 9 }] } :=
  ⟨submit_quiz_not_found_spec.1 {} {} { id := 4 } 9 [] 0 0,
   submit_quiz_not_found_spec.2 { quizzes := [{ id := 9 }] } { id := 4 } 9 [] 0 0
     { id := 9 } rfl rfl rfl⟩

/-- C5 counterexample: an injected persistence failure at the badge-award step
of submit_quiz is not surfaced and nothing is rolled back: on the concrete
passing submission the call still returns the attempt as a success, the
attempt row is stored, and the award links are simply missing, so the
attempt-saved-but-side-effects-partially-applied state is observable. -/
theorem submit_quiz_badge_failure_partial :
    submitIsOk (submit_quiz { failBadgeLink := true } dbC5 uC5 1 [] 0 0) = true ∧
    submitPassed (submit_quiz { failBadgeLink := true } dbC5 uC5 1 [] 0 0) = true ∧
    submitAttemptsCount (submit_quiz { failBadgeLink := true } dbC5 uC5 1 [] 0 0) = 1 ∧
    submitBadgeLinkCount (submit_quiz { failBadgeLink := true } dbC5 uC5 1 [] 0 0) = 0 := by
  obtain ⟨db', u', hrun, hatt, hfail, -⟩ :=
    submit_quiz_run { failBadgeLink := true } dbC5 uC5 1 [] 0 0 quizC5 rfl rfl rfl
  have hsc : quizScore quizC5 [] = 1 := by
    rw [quizScore_of_count quizC5 [] 1 1 rfl (by norm_num) rfl]
    norm_num
  have hp : quizPassed quizC5 [] = true := by
    unfold quizPassed
    rw [hsc]
    norm_num
  rw [hrun]
  refine ⟨rfl, hp, ?_, ?_⟩
  · show db'.attempts.length = 1
    rw [hatt]
    rfl
  · show db'.badge_links.length = 0
    rw [hfail rfl]
    rfl

/-- C5 as amended: a failure during the progress upsert or the point award is
caught by submit_quiz itself, which returns None instead of a result, so no
success with partially applied effects is ever reported (the host session,
never committed, discards the attempt and the endpoint surfaces an error);
a failure during the streak update or the badge award is logged and skipped:
the call still succeeds and returns the stored attempt without them. -/
theorem submit_quiz_failure_handling (db : DB) (u : User) (qid : Id)
    (ans : List (String × List String)) (today now : Int) (quiz : Quiz)
    (hq : get_quiz_with_questions db.quizzes qid = some quiz) :
    submit_quiz { failProgress := true } db u qid ans today now =
      SubmitOutcome.failure ∧
    (0 < quiz_points_to_award quiz ans →
      submit_quiz { failAward := true } db u qid ans today now =
        SubmitOutcome.failure) ∧
    (∃ a db' u',
      submit_quiz { failStreak := true, failBadgeLink := true }
          db u qid ans today now = SubmitOutcome.ok a db' u' ∧
      db'.attempts = db.attempts ++ [a] ∧
      db'.badge_links = db.badge_links) := by
  refine ⟨?_, ?_, ?_⟩
  · unfold submit_quiz
    rw [hq]
    dsimp only
    rw [if_pos rfl]
  · intro hpts
    unfold submit_quiz
    rw [hq]
    dsimp only
    rw [if_neg Bool.false_ne_true, if_pos ⟨rfl, hpts⟩]
  · obtain ⟨db', u', hrun, hatt, hfail, -⟩ :=
      submit_quiz_run { failStreak := true, failBadgeLink := true }
        db u qid ans today now quiz hq rfl rfl
    exact ⟨_, db', u', hrun, hatt, hfail rfl⟩

theorem submit_quiz_failure_handling_witness :
    submit_quiz { failProgress := true } dbC5 uC5 1 [] 0 0 =
      SubmitOutcome.failure :=
  (submit_quiz_failure_handling dbC5 uC5 1 [] 0 0 quizC5 rfl).1


/-! Helper lemmas about progress-record upserts. -/

theorem progress_count_cons (p : UserProgress) (ps : List UserProgress)
    (uid iid : Id) (it : ItemTypeEnum) :
    progress_count (p :: ps) uid iid it =
      (if p.user_id = uid ∧ p.item_id = iid ∧ p.item_type = it then 1 else 0) +
        progress_count ps uid iid it := by
  unfold progress_count
  rw [List.filter_cons]
  by_cases h : p.user_id = uid ∧ p.item_id = iid ∧ p.item_type = it
  · rw [if_pos (by simpa using h), if_pos h]
    simp [Nat.add_comm]
  · rw [if_neg (by simpa using h), if_neg h]
    simp

theorem progress_count_create_other (s : List UserProgress) (pin : UserProgressCreate)
    (uid iid : Id) (it : ItemTypeEnum)
    (hne : ¬(pin.user_id = uid ∧ pin.item_id = iid ∧ pin.item_type = it)) :
    progress_count (create_user_progress s pin) uid iid it =
      progress_count s uid iid it := by
  induction s with
  | nil =>
    simp only [create_user_progress]
    rw [progress_count_cons, if_neg hne]
    simp
  | cons p ps ih =>
    simp only [create_user_progress]
    by_cases hk : p.user_id = pin.user_id ∧ p.item_id = pin.item_id ∧ p.item_type = pin.item_type
    · rw [if_pos hk]
      by_cases hc : p.completed_at = none ∧ pin.completed_at ≠ none
      · rw [if_pos hc, progress_count_cons, progress_count_cons]
      · rw [if_neg hc]
    · rw [if_neg hk, progress_count_cons, progress_count_cons, ih]

theorem progress_count_create_le (s : List UserProgress) (pin : UserProgressCreate)
    (uid iid : Id) (it : ItemTypeEnum)
    (h : progress_count s uid iid it ≤ 1) :
    progress_count (create_user_progress s pin) uid iid it ≤ 1 := by
  by_cases hpk : pin.user_id = uid ∧ pin.item_id = iid ∧ pin.item_type = it
  case neg =>
    rw [progress_count_create_other s pin uid iid it hpk]
    exact h
  case pos =>
    obtain ⟨h1, h2, h3⟩ := hpk
    subst h1
    subst h2
    subst h3
    revert h
    induction s with
    | nil =>
      intro _
      simp only [create_user_progress]
      rw [progress_count_cons, if_pos ⟨rfl, rfl, rfl⟩]
      simp [progress_count]
    | cons p ps ih =>
      intro h
      simp only [create_user_progress]
      by_cases hk : p.user_id = pin.user_id ∧ p.item_id = pin.item_id ∧ p.item_type = pin.item_type
      · rw [if_pos hk]
        rw [progress_count_cons, if_pos hk] at h
        by_cases hc : p.completed_at = none ∧ pin.completed_at ≠ none
        · rw [if_pos hc, progress_count_cons, if_pos hk]
          omega
        · rw [if_neg hc, progress_count_cons, if_pos hk]
          omega
      · rw [if_neg hk]
        rw [progress_count_cons, if_neg hk] at h
        rw [progress_count_cons, if_neg hk]
        have := ih (by omega)
        omega

theorem get_progress_create_stable (s : List UserProgress) (pin : UserProgressCreate)
    (uid iid : Id) (it : ItemTypeEnum) (p : UserProgress) (t : Int)
    (hfound : get_user_progress_for_item s uid iid it = some p)
    (hc : p.completed_at = some t) :
    ∃ p', get_user_progress_for_item (create_user_progress s pin) uid iid it = some p' ∧
      p'.completed_at = some t := by
  induction s with
  | nil => simp [get_user_progress_for_item] at hfound
  | cons q ps ih =>
    by_cases hqt : q.user_id = uid ∧ q.item_id = iid ∧ q.item_type = it
    · have hpq : q = p := by
        unfold get_user_progress_for_item at hfound
        rw [List.find?_cons_of_pos _ (by simpa using hqt)] at hfound
        exact Option.some.inj hfound
      subst hpq
      by_cases hqk : q.user_id = pin.user_id ∧ q.item_id = pin.item_id ∧ q.item_type = pin.item_type
      · have hcf : ¬(q.completed_at = none ∧ pin.completed_at ≠ none) := by
          rintro ⟨h1, -⟩
          rw [hc] at h1
          cases h1
        simp only [create_user_progress, if_pos hqk, if_neg hcf]
        refine ⟨q, ?_, hc⟩
        unfold get_user_progress_for_item
        rw [List.find?_cons_of_pos _ (by simpa using hqt)]
      · simp only [create_user_progress, if_neg hqk]
        refine ⟨q, ?_, hc⟩
        unfold get_user_progress_for_item
        rw [List.find?_cons_of_pos _ (by simpa using hqt)]
    · have hfound' : get_user_progress_for_item ps uid iid it = some p := by
        unfold get_user_progress_for_item at hfound
        rw [List.find?_cons_of_neg _ (by simpa using hqt)] at hfound
        exact hfound
      by_cases hqk : q.user_id = pin.user_id ∧ q.item_id = pin.item_id ∧ q.item_type = pin.item_type
      · refine ⟨p, ?_, hc⟩
        simp only [create_user_progress, if_pos hqk]
        unfold get_user_progress_for_item
        rw [List.find?_cons_of_neg]
        · exact hfound'
        · split
          · simpa using hqt
          · simpa using hqt
      · obtain ⟨p', hp1, hp2⟩ := ih hfound'
        refine ⟨p', ?_, hp2⟩
        simp only [create_user_progress, if_neg hqk]
        unfold get_user_progress_for_item
        rw [List.find?_cons_of_neg _ (by simpa using hqt)]
        exact hp1

theorem get_progress_create_fill (s : List UserProgress) (pin : UserProgressCreate)
    (p : UserProgress) (t : Int)
    (hfound : get_user_progress_for_item s pin.user_id pin.item_id pin.item_type = some p)
    (hc : p.completed_at = none) (hpin : pin.completed_at = some t) :
    ∃ p', get_user_progress_for_item (create_user_progress s pin)
        pin.user_id pin.item_id pin.item_type = some p' ∧
      p'.completed_at = some t := by
  induction s with
  | nil => simp [get_user_progress_for_item] at hfound
  | cons q ps ih =>
    by_cases hqk : q.user_id = pin.user_id ∧ q.item_id = pin.item_id ∧ q.item_type = pin.item_type
    · have hpq : q = p := by
        unfold get_user_progress_for_item at hfound
        rw [List.find?_cons_of_pos _ (by simpa using hqk)] at hfound
        exact Option.some.inj hfound
      subst hpq
      have hcT : q.completed_at = none ∧ pin.completed_at ≠ none := by
        refine ⟨hc, ?_⟩
        rw [hpin]
        simp
      simp only [create_user_progress, if_pos hqk, if_pos hcT]
      have hfind : get_user_progress_for_item ({ q with completed_at := pin.completed_at, meta_data := if pin.meta_data ≠ none then pin.meta_data else q.meta_data } :: ps) pin.user_id pin.item_id pin.item_type = some { q with completed_at := pin.completed_at, meta_data := if pin.meta_data ≠ none then pin.meta_data else q.meta_data } := by
        unfold get_user_progress_for_item
        rw [List.find?_cons_of_pos _ (by simpa using hqk)]
      exact ⟨_, hfind, hpin⟩
    · have hfound' : get_user_progress_for_item ps pin.user_id pin.item_id pin.item_type =
          some p := by
        unfold get_user_progress_for_item at hfound
        rw [List.find?_cons_of_neg _ (by simpa using hqk)] at hfound
        exact hfound
      obtain ⟨p', hp1, hp2⟩ := ih hfound'
      refine ⟨p', ?_, hp2⟩
      simp only [create_user_progress, if_neg hqk]
      unfold get_user_progress_for_item
      rw [List.find?_cons_of_neg _ (by simpa using hqk)]
      exact hp1

theorem progress_count_foldl_le (pins : List UserProgressCreate) (s : List UserProgress)
    (h : ∀ uid iid it, progress_count s uid iid it ≤ 1) :
    ∀ (uid iid : Id) (it : ItemTypeEnum),
      progress_count (pins.foldl create_user_progress s) uid iid it ≤ 1 := by
  induction pins generalizing s with
  | nil => exact h
  | cons pin pins ih =>
    rw [List.foldl_cons]
    exact ih (create_user_progress s pin)
      (fun uid iid it => progress_count_create_le s pin uid iid it (h uid iid it))

/-- C7: creating a progress record is idempotent: after any sequence of
create_user_progress calls starting from an empty store at most one row exists
per (user, item, type) triple; a row whose completed_at is already set keeps
that value across any later call; and a later call with the same triple fills
a null completed_at with its own non-null value. -/
theorem create_user_progress_idempotent :
    (∀ (pins : List UserProgressCreate) (uid iid : Id) (it : ItemTypeEnum),
      progress_count (pins.foldl create_user_progress []) uid iid it ≤ 1) ∧
    (∀ (s : List UserProgress) (pin : UserProgressCreate) (uid iid : Id)
       (it : ItemTypeEnum) (p : UserProgress) (t : Int),
      get_user_progress_for_item s uid iid it = some p →
      p.completed_at = some t →
      ∃ p', get_user_progress_for_item (create_user_progress s pin) uid iid it =
          some p' ∧ p'.completed_at = some t) ∧
    (∀ (s : List UserProgress) (pin : UserProgressCreate) (p : UserProgress) (t : Int),
      get_user_progress_for_item s pin.user_id pin.item_id pin.item_type = some p →
      p.completed_at = none → pin.completed_at = some t →
      ∃ p', get_user_progress_for_item (create_user_progress s pin)
          pin.user_id pin.item_id pin.item_type = some p' ∧
        p'.completed_at = some t) := by
  refine ⟨?_, ?_, ?_⟩
  · intro pins uid iid it
    exact progress_count_foldl_le pins []
      (fun uid iid it => by simp [progress_count]) uid iid it
  · intro s pin uid iid it p t hfound hc
    exact get_progress_create_stable s pin uid iid it p t hfound hc
  · intro s pin p t hfound hc hpin
    exact get_progress_create_fill s pin p t hfound hc hpin

theorem create_user_progress_idempotent_witness :
    progress_count
      ([{ user_id := 1, item_id := 2, item_type := ItemTypeEnum.QUIZ,
          completed_at := some 5 },
        { user_id := 1, item_id := 2, item_type := ItemTypeEnum.QUIZ,
          completed_at := some 9 }].foldl create_user_progress [])
      1 2 ItemTypeEnum.QUIZ ≤ 1 ∧
    (∃ p', get_user_progress_for_item
        (create_user_progress
          [{ user_id := 1, item_id := 2, item_type := ItemTypeEnum.QUIZ,
             completed_at := some 5 }]
          { user_id := 1, item_id := 2, item_type := ItemTypeEnum.QUIZ,
            completed_at := some 9 }) 1 2 ItemTypeEnum.QUIZ = some p' ∧
      p'.completed_at = some 5) ∧
    (∃ p', get_user_progress_for_item
        (create_user_progress
          [{ user_id := 1, item_id := 2, item_type := ItemTypeEnum.QUIZ }]
          { user_id := 1, item_id := 2, item_type := ItemTypeEnum.QUIZ,
            completed_at := some 9 }) 1 2 ItemTypeEnum.QUIZ = some p' ∧
      p'.completed_at = some 9) :=
  ⟨create_user_progress_idempotent.1
      [{ user_id := 1, item_id := 2, item_type := ItemTypeEnum.QUIZ,
         completed_at := some 5 },
       { user_id := 1, item_id := 2, item_type := ItemTypeEnum.QUIZ,
         completed_at := some 9 }] 1 2 ItemTypeEnum.QUIZ,
   create_user_progress_idempotent.2.1
      [{ user_id := 1, item_id := 2, item_type := ItemTypeEnum.QUIZ,
         completed_at := some 5 }]
      { user_id := 1, item_id := 2, item_type := ItemTypeEnum.QUIZ,
        completed_at := some 9 } 1 2 ItemTypeEnum.QUIZ
      { user_id := 1, item_id := 2, item_type := ItemTypeEnum.QUIZ,
        completed_at := some 5 } 5 rfl rfl,
   create_user_progress_idempotent.2.2
      [{ user_id := 1, item_id := 2, item_type := ItemTypeEnum.QUIZ }]
      { user_id := 1, item_id := 2, item_type := ItemTypeEnum.QUIZ,
        completed_at := some 9 }
      { user_id := 1, item_id := 2, item_type := ItemTypeEnum.QUIZ } 9 rfl rfl rfl⟩


/-- C8: with check_existing at its default, awarding a badge twice creates
exactly one link: the first call returns the link and leaves exactly one
matching award row, and the second call returns none and changes nothing. -/
theorem check_and_award_badge_idempotent (db : DB) (u : User) (n : String) (b : Badge)
    (hname : get_badge_by_name db.badges n = some b)
    (hid : get_badge db.badges b.id = some b)
    (hno : user_has_badge db u.id n = false) :
    (check_and_award_badge false db u n true).1 =
      some { user_id := u.id, badge_id := b.id } ∧
    badge_link_count ((check_and_award_badge false db u n true).2) u.id n = 1 ∧
    check_and_award_badge false ((check_and_award_badge false db u n true).2) u n true =
      (none, (check_and_award_badge false db u n true).2) := by
  have hbn : (b.name == n) = true := by
    have h' := hname
    unfold get_badge_by_name at h'
    have h2 := List.find?_some h'
    simpa using h2
  have hcall : check_and_award_badge false db u n true =
      (some { user_id := u.id, badge_id := b.id },
       { db with badge_links :=
          db.badge_links ++ [{ user_id := u.id, badge_id := b.id }] }) := by
    unfold check_and_award_badge
    rw [if_neg (by simp [hno]), hname]
    dsimp only
    rw [if_neg Bool.false_ne_true]
    rfl
  have hzero : badge_link_count db u.id n = 0 := by
    unfold user_has_badge at hno
    rw [List.any_eq_false] at hno
    unfold badge_link_count
    rw [List.length_eq_zero, List.filter_eq_nil_iff]
    exact hno
  have hcount : badge_link_count
      { db with badge_links :=
        db.badge_links ++ [{ user_id := u.id, badge_id := b.id }] } u.id n = 1 := by
    unfold badge_link_count
    dsimp only
    rw [List.filter_append, List.filter_append, List.length_append]
    have hz' := hzero
    unfold badge_link_count at hz'
    rw [hz']
    simp [hid, hbn]
  have hhas : user_has_badge
      { db with badge_links :=
        db.badge_links ++ [{ user_id := u.id, badge_id := b.id }] } u.id n = true := by
    unfold user_has_badge
    dsimp only
    rw [List.filter_append, List.any_append]
    simp [hid, hbn]
  have hsecond : check_and_award_badge false
      { db with badge_links :=
        db.badge_links ++ [{ user_id := u.id, badge_id := b.id }] } u n true =
      (none,
       { db with badge_links :=
         db.badge_links ++ [{ user_id := u.id, badge_id := b.id }] }) := by
    unfold check_and_award_badge
    rw [if_pos (by simp [hhas])]
  rw [hcall]
  exact ⟨rfl, hcount, hsecond⟩

theorem check_and_award_badge_idempotent_witness :
    (check_and_award_badge false { badges := [{ id := 3, name := "Quiz Taker" }] }
        { id := 5 } "Quiz Taker" true).1 = some { user_id := 5, badge_id := 3 } ∧
    badge_link_count ((check_and_award_badge false
        { badges := [{ id := 3, name := "Quiz Taker" }] }
        { id := 5 } "Quiz Taker" true).2) 5 "Quiz Taker" = 1 ∧
    check_and_award_badge false ((check_and_award_badge false
        { badges := [{ id := 3, name := "Quiz Taker" }] }
        { id := 5 } "Quiz Taker" true).2) { id := 5 } "Quiz Taker" true =
      (none, (check_and_award_badge false { badges := [{ id := 3, name := "Quiz Taker" }] }
        { id := 5 } "Quiz Taker" true).2) :=
  check_and_award_badge_idempotent { badges := [{ id := 3, name := "Quiz Taker" }] }
    { id := 5 } "Quiz Taker" { id := 3, name := "Quiz Taker" } rfl rfl rfl


/-! Helper lemmas for the assignment flow. -/

theorem pyInt_nonneg_eq_floor (q : ℚ) (h : 0 ≤ q) : pyInt q = ⌊q⌋ := by
  unfold pyInt
  rw [if_pos h]

theorem update_daily_streak_points (f : Bool) (db : DB) (u : User) (today : Int) :
    ((update_daily_streak f db u today).2).points =
      u.points + streak_bonus f db.streaks u.id today := by
  unfold update_daily_streak streak_bonus
  by_cases hf : f = true
  · rw [if_pos hf, if_pos hf]
    dsimp only
    omega
  · rw [if_neg hf, if_neg hf]
    dsimp only
    by_cases hsd : ((get_or_create_user_streak db.streaks u.id).1).last_completed_date =
        some today
    · rw [if_pos hsd, if_pos hsd]
      dsimp only
      omega
    · rw [if_neg hsd, if_neg hsd]
      dsimp only
      by_cases hb : (streak_step today (get_or_create_user_streak db.streaks u.id).1).2 > 0
      · rw [if_pos hb, if_pos hb]
        exact award_points_points _ _ _ hb
      · rw [if_neg hb, if_neg hb]
        omega

theorem streak_bonus_sameday (streaks : List UserStreak) (uid : Id) (today : Int)
    (s : UserStreak) (hfind : streaks.find? (fun t => t.user_id == uid) = some s)
    (hsd : s.last_completed_date = some today) :
    streak_bonus false streaks uid today = 0 := by
  unfold streak_bonus
  rw [if_neg Bool.false_ne_true]
  dsimp only
  rw [get_or_create_found hfind]
  exact if_pos hsd

theorem update_assignment_submission_user_id (s : UserAssignmentSubmission)
    (st : String) (g : Option ℚ) (fb : Option String) (n : Int) :
    (update_assignment_submission s st g fb n).user_id = s.user_id := by
  unfold update_assignment_submission
  split <;> rfl

theorem update_assignment_submission_assignment_id (s : UserAssignmentSubmission)
    (st : String) (g : Option ℚ) (fb : Option String) (n : Int) :
    (update_assignment_submission s st g fb n).assignment_id = s.assignment_id := by
  unfold update_assignment_submission
  split <;> rfl

theorem update_assignment_submission_status (s : UserAssignmentSubmission)
    (st : String) (g : Option ℚ) (fb : Option String) (n : Int) :
    (update_assignment_submission s st g fb n).status = st := by
  unfold update_assignment_submission
  split <;> rfl

theorem update_assignment_submission_grade (s : UserAssignmentSubmission)
    (st : String) (g : Option ℚ) (fb : Option String) (n : Int) :
    (update_assignment_submission s st g fb n).grade = g := by
  unfold update_assignment_submission
  split <;> rfl

theorem check_and_award_badge_users (f : Bool) (db : DB) (u : User)
    (n : String) (c : Bool) :
    ((check_and_award_badge f db u n c).2).users = db.users := by
  unfold check_and_award_badge
  repeat' split
  all_goals rfl

theorem check_and_award_badge_badges (f : Bool) (db : DB) (u : User)
    (n : String) (c : Bool) :
    ((check_and_award_badge f db u n c).2).badges = db.badges := by
  unfold check_and_award_badge
  repeat' split
  all_goals rfl

theorem user_has_badge_append_link (db : DB) (u : User) (b : Badge) (n : String)
    (hid : get_badge db.badges b.id = some b) (hbn : (b.name == n) = true) :
    user_has_badge
      { db with badge_links := db.badge_links ++ [{ user_id := u.id, badge_id := b.id }] }
      u.id n = true := by
  unfold user_has_badge
  dsimp only
  rw [List.filter_append, List.any_append]
  simp [hid, hbn]

theorem check_and_award_badge_has (db : DB) (u : User) (n : String) (b : Badge)
    (uid : Id) (hname : get_badge_by_name db.badges n = some b)
    (hid : get_badge db.badges b.id = some b) (huid : uid = u.id) :
    user_has_badge ((check_and_award_badge false db u n true).2) uid n = true := by
  subst huid
  have hbn : (b.name == n) = true := by
    have h' := hname
    unfold get_badge_by_name at h'
    have h2 := List.find?_some h'
    simpa using h2
  unfold check_and_award_badge
  cases hhas : user_has_badge db u.id n with
  | true =>
    rw [if_pos (by simp [hhas])]
    exact hhas
  | false =>
    rw [if_neg (by simp [hhas]), hname]
    dsimp only
    rw [if_neg Bool.false_ne_true]
    exact user_has_badge_append_link db u b n hid hbn

theorem user_has_badge_mono_check (f : Bool) (db : DB) (u : User) (m : String)
    (c : Bool) (uid : Id) (n : String) (h : user_has_badge db uid n = true) :
    user_has_badge ((check_and_award_badge f db u m c).2) uid n = true := by
  unfold check_and_award_badge
  repeat' split
  all_goals try exact h
  all_goals
    (unfold user_has_badge at h ⊢
     unfold add_badge_to_user
     dsimp only
     rw [List.filter_append, List.any_append, h]
     rfl)

theorem check_and_award_badge_other (db : DB) (u : User) (m : String) (b : Badge)
    (uid : Id) (n : String)
    (hname : get_badge_by_name db.badges m = some b)
    (hid : get_badge db.badges b.id = some b)
    (hbn : b.name ≠ n) :
    user_has_badge ((check_and_award_badge false db u m true).2) uid n =
      user_has_badge db uid n := by
  unfold check_and_award_badge
  split
  · rfl
  · rw [hname]
    dsimp only
    rw [if_neg Bool.false_ne_true]
    unfold user_has_badge add_badge_to_user
    dsimp only
    rw [List.filter_append, List.any_append]
    by_cases hu : ((u.id : Id) == uid) = true
    · simp [hu, hid, beq_eq_false_iff_ne.mpr hbn]
    · simp [hu]

theorem user_has_badge_set_users (db : DB) (us : List User) (uid : Id) (n : String) :
    user_has_badge { db with users := us } uid n = user_has_badge db uid n := rfl

theorem get_user_usersReplace (users : List User) (uid : Id) (user u1 : User)
    (hfind : get_user users uid = some user) (hid : u1.id = user.id)
    (huid : user.id = uid) :
    get_user (usersReplace users u1) uid = some u1 := by
  induction users with
  | nil => simp [get_user] at hfind
  | cons v vs ih =>
    unfold get_user at hfind ⊢
    unfold usersReplace
    rw [List.map_cons]
    by_cases hv : ((v.id : Id) == uid) = true
    · have hveq : v = user := by
        simp only [List.find?, hv] at hfind
        exact Option.some.inj hfind
      rw [if_pos (by rw [hveq]; exact hid.symm)]
      have hu1 : ((u1.id : Id) == uid) = true := by simp [hid, huid]
      simp only [List.find?, hu1]
    · have hv' : ((v.id : Id) == uid) = false := by
        cases hb : ((v.id : Id) == uid) with
        | true => exact absurd hb hv
        | false => rfl
      simp only [List.find?, hv'] at hfind
      by_cases hvu : v.id = u1.id
      · exfalso
        apply hv
        rw [hvu, hid, huid]
        simp
      · rw [if_neg hvu]
        simp only [List.find?, hv']
        exact ih hfind


theorem ite_award_id (c : Prop) [Decidable c] (L : List UserLevel) (u : User) (d : Int) :
    (if c then award_points L u d else u).id = u.id := by
  split
  · exact award_points_id L u d
  · rfl

theorem ite_award_points (L : List UserLevel) (u : User) (d : Int) :
    (if d > 0 then award_points L u d else u).points =
      u.points + (if d > 0 then d else 0) := by
  by_cases h : d > 0
  · rw [if_pos h, if_pos h, award_points_points L u d h]
  · rw [if_neg h, if_neg h]
    omega


/-- C6: submit_assignment awards exactly floor(points_reward * 0.25) as the
submission credit (stated here with the daily streak already counted for
today, so no streak bonus interferes), and grade_assignment with status
"passed" awards the remaining points_reward - floor(points_reward * 0.25),
plus floor(points_reward * 0.1) more when the grade is at least 0.9, and
grants the badge "Assignment Complete", granting "Top Marks" exactly when
the grade equals 1.0. -/
theorem assignment_award_spec :
    (∀ (db : DB) (u : User) (aid : Id) (content : String) (today now : Int)
       (assignment : Assignment) (s : UserStreak),
      get_assignment db.assignments aid = some assignment →
      0 ≤ assignment.points_reward →
      db.streaks.find? (fun t => t.user_id == u.id) = some s →
      s.last_completed_date = some today →
      ∃ sub db' u', submit_assignment db u aid content today now =
          SubmissionOutcome.ok sub db' u' ∧
        u'.points = u.points + ⌊(assignment.points_reward : ℚ) * 0.25⌋) ∧
    (∀ (db : DB) (sid : Id) (grade : Option ℚ) (fb : Option String) (now : Int)
       (sub : UserAssignmentSubmission) (user : User) (assignment : Assignment)
       (bAC : Badge),
      get_assignment_submission db.submissions sid = some sub →
      get_user db.users sub.user_id = some user →
      get_assignment db.assignments sub.assignment_id = some assignment →
      0 ≤ assignment.points_reward →
      get_badge_by_name db.badges "Assignment Complete" = some bAC →
      get_badge db.badges bAC.id = some bAC →
      ∃ sub' db', grade_assignment db sid "passed" grade fb now =
          GradeOutcome.ok sub' db' ∧
        sub'.status = "passed" ∧ sub'.grade = grade ∧
        (∃ u', get_user db'.users user.id = some u' ∧
          u'.points = user.points +
            (assignment.points_reward - ⌊(assignment.points_reward : ℚ) * 0.25⌋) +
            (match grade with
             | some g => if g ≥ 0.9 then ⌊(assignment.points_reward : ℚ) * 0.1⌋ else 0
             | none => 0)) ∧
        user_has_badge db' user.id "Assignment Complete" = true ∧
        (grade = some 1 → ∀ bTM, get_badge_by_name db.badges "Top Marks" = some bTM →
          get_badge db.badges bTM.id = some bTM →
          user_has_badge db' user.id "Top Marks" = true) ∧
        (grade ≠ some 1 →
          user_has_badge db' user.id "Top Marks" =
            user_has_badge db user.id "Top Marks")) := by
  constructor
  · intro db u aid content today now assignment s ha hR hfind hsd
    unfold submit_assignment
    rw [ha]
    dsimp only
    refine ⟨_, _, _, rfl, ?_⟩
    rw [update_daily_streak_points]
    dsimp only
    rw [ite_award_id, ite_award_points,
      streak_bonus_sameday db.streaks u.id today s hfind hsd]
    have hf4 : pyInt ((assignment.points_reward : ℚ) * 0.25) =
        ⌊(assignment.points_reward : ℚ) * 0.25⌋ :=
      pyInt_nonneg_eq_floor _ (mul_nonneg (by exact_mod_cast hR) (by norm_num))
    have h0 : (0 : Int) ≤ ⌊(assignment.points_reward : ℚ) * 0.25⌋ :=
      Int.floor_nonneg.mpr (mul_nonneg (by exact_mod_cast hR) (by norm_num))
    rw [hf4]
    split
    · omega
    · rename_i hn
      omega
  · intro db sid grade fb now sub user assignment bAC hsub huser hassn hR hACname hACid
    have huid : user.id = sub.user_id := by
      have h := huser
      unfold get_user at h
      have h2 := List.find?_some h
      simpa using h2
    have hACne : bAC.name ≠ "Top Marks" := by
      have h' := hACname
      unfold get_badge_by_name at h'
      have h2 := List.find?_some h'
      have h3 : bAC.name = "Assignment Complete" := by simpa using h2
      rw [h3]
      decide
    unfold grade_assignment
    rw [hsub]
    dsimp only
    rw [if_pos rfl, update_assignment_submission_user_id,
      update_assignment_submission_assignment_id]
    rw [huser, hassn]
    dsimp only
    refine ⟨_, _, rfl, update_assignment_submission_status sub _ grade fb now,
      update_assignment_submission_grade sub _ grade fb now, ?_, ?_, ?_, ?_⟩
    · rw [apply_ite DB.users]
      simp only [check_and_award_badge_users]
      rw [ite_self]
      refine ⟨_, get_user_usersReplace _ _ user _ (by rw [huid]; exact huser)
        (ite_award_id _ _ _ _) rfl, ?_⟩
      rw [ite_award_points]
      have hf4 : pyInt ((assignment.points_reward : ℚ) * 0.25) =
          ⌊(assignment.points_reward : ℚ) * 0.25⌋ :=
        pyInt_nonneg_eq_floor _ (mul_nonneg (by exact_mod_cast hR) (by norm_num))
      have hf10 : pyInt ((assignment.points_reward : ℚ) * 0.1) =
          ⌊(assignment.points_reward : ℚ) * 0.1⌋ :=
        pyInt_nonneg_eq_floor _ (mul_nonneg (by exact_mod_cast hR) (by norm_num))
      have h04 : (0 : Int) ≤ ⌊(assignment.points_reward : ℚ) * 0.25⌋ :=
        Int.floor_nonneg.mpr (mul_nonneg (by exact_mod_cast hR) (by norm_num))
      have h010 : (0 : Int) ≤ ⌊(assignment.points_reward : ℚ) * 0.1⌋ :=
        Int.floor_nonneg.mpr (mul_nonneg (by exact_mod_cast hR) (by norm_num))
      have hle4 : ⌊(assignment.points_reward : ℚ) * 0.25⌋ ≤ assignment.points_reward := by
        calc ⌊(assignment.points_reward : ℚ) * 0.25⌋ ≤ ⌊(assignment.points_reward : ℚ)⌋ := by
              apply Int.floor_le_floor
              nlinarith [show (0:ℚ) ≤ (assignment.points_reward : ℚ) from by exact_mod_cast hR]
          _ = assignment.points_reward := Int.floor_intCast assignment.points_reward
      cases grade with
      | none =>
        dsimp only
        rw [hf4]
        omega
      | some g =>
        dsimp only
        by_cases hg9 : g ≥ 0.9
        · rw [if_pos hg9, if_pos hg9, hf4, hf10]
          omega
        · rw [if_neg hg9, if_neg hg9, hf4]
          omega
    · rw [user_has_badge_set_users]
      by_cases hg1 : grade = some 1
      · rw [if_pos hg1]
        exact user_has_badge_mono_check _ _ _ _ _ _ _
          (check_and_award_badge_has _ _ _ bAC _ hACname hACid
            (ite_award_id _ _ _ _).symm)
      · rw [if_neg hg1]
        exact check_and_award_badge_has _ _ _ bAC _ hACname hACid
          (ite_award_id _ _ _ _).symm
    · intro hg1 bTM hTMname hTMid
      rw [user_has_badge_set_users, if_pos hg1]
      exact check_and_award_badge_has _ _ _ bTM _
        (by rw [check_and_award_badge_badges]; exact hTMname)
        (by rw [check_and_award_badge_badges]; exact hTMid)
        (ite_award_id _ _ _ _).symm
    · intro hg1
      rw [user_has_badge_set_users, if_neg hg1]
      exact check_and_award_badge_other _ _ _ bAC _ _ hACname hACid hACne


theorem assignment_award_spec_witness :
    (∃ sub db' u', submit_assignment dbC6sub { id := 5 } 1 "x" 3 7 =
        SubmissionOutcome.ok sub db' u' ∧
      u'.points = ({ id := 5 } : User).points + ⌊(assignC6.points_reward : ℚ) * 0.25⌋) ∧
    ∃ sub' db', grade_assignment dbC6grade 9 "passed" (some 1) none 7 =
        GradeOutcome.ok sub' db' ∧
      sub'.status = "passed" ∧ sub'.grade = some 1 ∧
      (∃ u', get_user db'.users ({ id := 5 } : User).id = some u' ∧
        u'.points = ({ id := 5 } : User).points +
          (assignC6.points_reward - ⌊(assignC6.points_reward : ℚ) * 0.25⌋) +
          (match (some 1 : Option ℚ) with
           | some g => if g ≥ 0.9 then ⌊(assignC6.points_reward : ℚ) * 0.1⌋ else 0
           | none => 0)) ∧
      user_has_badge db' ({ id := 5 } : User).id "Assignment Complete" = true ∧
      ((some 1 : Option ℚ) = some 1 →
        ∀ bTM, get_badge_by_name dbC6grade.badges "Top Marks" = some bTM →
        get_badge dbC6grade.badges bTM.id = some bTM →
        user_has_badge db' ({ id := 5 } : User).id "Top Marks" = true) ∧
      ((some 1 : Option ℚ) ≠ some 1 →
        user_has_badge db' ({ id := 5 } : User).id "Top Marks" =
          user_has_badge dbC6grade ({ id := 5 } : User).id "Top Marks") :=
  ⟨assignment_award_spec.1 dbC6sub { id := 5 } 1 "x" 3 7 assignC6
      { user_id := 5, current_streak := 1, longest_streak := 1,
        last_completed_date := some 3 } rfl (by decide) rfl rfl,
   assignment_award_spec.2 dbC6grade 9 (some 1) none 7 subC6 { id := 5 } assignC6
      { id := 21, name := "Assignment Complete" } rfl rfl rfl (by decide) rfl rfl⟩

end Devaut
